import Mathlib

/-!
# Verification of macauff core claims

A shallow embedding, over `ℚ` (for floating-point quantities) and `ℕ`/`ℤ`
(for machine integers), of the parts of the `macauff` cross-match package
that the checked claims concern:

* `source_pairing` (counterpart_pairing.py): the output-filtering and
  accounting-check stage that runs after the Fortran island solver.
* `make_perturb_aufs` (perturbation_auf.py): eager configuration
  validation and the Dirac-delta dummy AUF outputs.
* `create_single_perturb_auf` (perturbation_auf.py): the bright-source
  sufficiency check.
* `download_trilegal_simulation` (perturbation_auf.py): the retry loop,
  modelled as a transition system over a trace of provider responses.
* `calculate_local_density` (perturbation_auf.py).
* `_calculate_magnitude_offsets` (perturbation_auf.py).
* `_load_cumulative_grid_cutouts` (group_sources.py, modelled from the
  spec; only its test is available).

Transcendental operations of the numerics library (`np.pi`, `np.log10`,
`10**x`) are abstracted as function/constant parameters, so that every
definition stays executable; theorems quantify over those parameters
(with the hypotheses, for instance non-negativity of `10**x`, that the
floating-point versions satisfy).
-/

namespace Macauff

/-! ## counterpart_pairing.source_pairing (lines 97-189)

The Fortran solver `cpf.find_island_probabilities` returns parallel
arrays, all indexed by candidate-counterpart position (length
`cprt_max_len`) or by field-source position (lengths `len_a`, `len_b`).
We model the parallel arrays as lists of row records: one record per
candidate counterpart, one per potential field source on each side.
`acontamprob`/`bcontamprob` are `(n_fracs, cprt_max_len)`-shaped in the
source, i.e. each counterpart row carries a list of `n_fracs`
contamination probabilities.  -/

/-- One candidate counterpart row: the slice, at one counterpart position,
through the parallel arrays `acountinds`, `bcountinds`, `acontamprob`,
`bcontamprob`, `acontamflux`, `bcontamflux`, `probcarray`, `etaarray`,
`xiarray`, `crptseps` returned by the Fortran solver. -/
structure CrptRow where
  acountind : ℕ
  bcountind : ℕ
  acontamprob : List ℚ
  bcontamprob : List ℚ
  acontamflux : ℚ
  bcontamflux : ℚ
  probc : ℚ
  eta : ℚ
  xi : ℚ
  crptsep : ℚ
  deriving DecidableEq, Repr

/-- One potential field-source row for catalogue "a": the slice through
`afieldinds`, `probfaarray`, `afieldfluxs`, `afieldseps`, `afieldetas`,
`afieldxis`. -/
structure FieldRowA where
  afieldind : ℕ
  probfa : ℚ
  afieldflux : ℚ
  afieldsep : ℚ
  afieldeta : ℚ
  afieldxi : ℚ
  deriving DecidableEq, Repr

/-- One potential field-source row for catalogue "b": the slice through
`bfieldinds`, `probfbarray`, `bfieldfluxs`, `bfieldseps`, `bfieldetas`,
`bfieldxis`. -/
structure FieldRowB where
  bfieldind : ℕ
  probfb : ℚ
  bfieldflux : ℚ
  bfieldsep : ℚ
  bfieldeta : ℚ
  bfieldxi : ℚ
  deriving DecidableEq, Repr

/-- counterpart_pairing.py line 135-139: the boolean mask
`countfilter` over counterpart rows,
`(acountinds < large_len+1) & (bcountinds < large_len+1) &
 np.all(acontamprob >= 0, axis=0) & np.all(bcontamprob >= 0, axis=0) &
 (acontamflux >= 0) & (bcontamflux >= 0) & (probcarray >= 0) &
 (etaarray >= -30) & (xiarray >= -30)`. -/
def countfilter (large_len : ℕ) (row : CrptRow) : Bool :=
  decide (row.acountind < large_len + 1) && decide (row.bcountind < large_len + 1) &&
  row.acontamprob.all (fun p => decide (0 ≤ p)) &&
  row.bcontamprob.all (fun p => decide (0 ≤ p)) &&
  decide (0 ≤ row.acontamflux) && decide (0 ≤ row.bcontamflux) &&
  decide (0 ≤ row.probc) && decide (-30 ≤ row.eta) && decide (-30 ≤ row.xi)

/-- counterpart_pairing.py line 141: the mask
`afieldfilter = (afieldinds < large_len+1) & (probfaarray >= 0)`. -/
def afieldfilter (large_len : ℕ) (row : FieldRowA) : Bool :=
  decide (row.afieldind < large_len + 1) && decide (0 ≤ row.probfa)

/-- counterpart_pairing.py line 143: the mask
`bfieldfilter = (bfieldinds < large_len+1) & (probfbarray >= 0)`. -/
def bfieldfilter (large_len : ℕ) (row : FieldRowB) : Bool :=
  decide (row.bfieldind < large_len + 1) && decide (0 ≤ row.probfb)

/-- The result of the post-solver stage of `source_pairing`: the
row-filtered output arrays that are written to the `pairing/*.npy` files
(kept as filtered row lists: each saved per-quantity file is a projection
of the corresponding row list), together with the diagnostic warnings
raised by the accounting consistency check. -/
structure PairingOutput where
  savedCrpt : List CrptRow
  savedFieldA : List FieldRowA
  savedFieldB : List FieldRowB
  warnings : List String
  deriving Repr

/-- counterpart_pairing.py lines 97-189 after the Fortran call: computes
`large_len = max(big_len_a, big_len_b)` (line 101), the three filter
masks (lines 135-143), saves every output array filtered by its mask
(lines 152-171), and finally performs the non-fatal accounting check
(lines 173-188), emitting `warnings.warn` messages.  The function is
total: no path raises. -/
def source_pairing (crows : List CrptRow) (afrows : List FieldRowA)
    (bfrows : List FieldRowB) (big_len_a big_len_b lenrejecta lenrejectb : ℕ) :
    PairingOutput :=
  let large_len := max big_len_a big_len_b
  let savedCrpt := crows.filter (countfilter large_len)
  let savedFieldA := afrows.filter (afieldfilter large_len)
  let savedFieldB := bfrows.filter (bfieldfilter large_len)
  let countsum := savedCrpt.length
  let afieldsum := savedFieldA.length
  let bfieldsum := savedFieldB.length
  let tota := countsum + afieldsum + lenrejecta
  let totb := countsum + bfieldsum + lenrejectb
  let warnsa : List String :=
    (if tota < big_len_a then
      [s!"{big_len_a - tota} catalogue a sources not in either counterpart, field, " ++
        "or rejected source lists"] else []) ++
    (if big_len_a < tota then
      [s!"{tota - big_len_a} additional catalogue a indices recorded, check results " ++
        "for duplications carefully"] else [])
  let warnsb : List String :=
    (if totb < big_len_b then
      [s!"{big_len_b - totb} catalogue b sources not in either counterpart, field, " ++
        "or rejected source lists."] else []) ++
    (if big_len_b < totb then
      [s!"{totb - big_len_b} additional catalogue b indices recorded, check results " ++
        "for duplications carefully"] else [])
  { savedCrpt := savedCrpt
    savedFieldA := savedFieldA
    savedFieldB := savedFieldB
    warnings := warnsa ++ warnsb }

/-- The saved `ac.npy` array: counterpart indices into catalogue a. -/
def savedAc (out : PairingOutput) : List ℕ := out.savedCrpt.map CrptRow.acountind

/-- The saved `bc.npy` array: counterpart indices into catalogue b. -/
def savedBc (out : PairingOutput) : List ℕ := out.savedCrpt.map CrptRow.bcountind

/-- The saved `af.npy` array: field-source indices into catalogue a. -/
def savedAf (out : PairingOutput) : List ℕ := out.savedFieldA.map FieldRowA.afieldind

/-- The saved `bf.npy` array: field-source indices into catalogue b. -/
def savedBf (out : PairingOutput) : List ℕ := out.savedFieldB.map FieldRowB.bfieldind

end Macauff

namespace Macauff

/-- Helper: membership in a saved counterpart projection forces the
`countfilter` mask to hold on some underlying row. -/
theorem mem_savedCrpt_countfilter {crows : List CrptRow} {afrows : List FieldRowA}
    {bfrows : List FieldRowB} {la lb ra rb : ℕ} {r : CrptRow}
    (h : r ∈ (source_pairing crows afrows bfrows la lb ra rb).savedCrpt) :
    r ∈ crows ∧ countfilter (max la lb) r = true := by
  simpa [source_pairing, List.mem_filter] using h

/-- Helper: membership in the saved field lists forces the field masks. -/
theorem mem_savedFieldA_afieldfilter {crows : List CrptRow} {afrows : List FieldRowA}
    {bfrows : List FieldRowB} {la lb ra rb : ℕ} {r : FieldRowA}
    (h : r ∈ (source_pairing crows afrows bfrows la lb ra rb).savedFieldA) :
    r ∈ afrows ∧ afieldfilter (max la lb) r = true := by
  simpa [source_pairing, List.mem_filter] using h

/-- Helper: membership in the saved field lists forces the field masks. -/
theorem mem_savedFieldB_bfieldfilter {crows : List CrptRow} {afrows : List FieldRowA}
    {bfrows : List FieldRowB} {la lb ra rb : ℕ} {r : FieldRowB}
    (h : r ∈ (source_pairing crows afrows bfrows la lb ra rb).savedFieldB) :
    r ∈ bfrows ∧ bfieldfilter (max la lb) r = true := by
  simpa [source_pairing, List.mem_filter] using h

/-- C1: in `source_pairing`, every sentinel-marked entry (index at or
above `max(big_len_a, big_len_b) + 1`, the out-of-range initialisation
threshold of line 101) is removed by the masks of lines 135-143 before
the arrays are saved at lines 152-171, so no index greater than or equal
to `total_catalogue_length + 1` appears in any saved counterpart or
field index output file (`ac`, `bc`, `af`, `bf`). -/
theorem saved_indices_below_sentinel (crows : List CrptRow) (afrows : List FieldRowA)
    (bfrows : List FieldRowB) (la lb ra rb : ℕ) :
    (∀ x ∈ savedAc (source_pairing crows afrows bfrows la lb ra rb), x < max la lb + 1) ∧
    (∀ x ∈ savedBc (source_pairing crows afrows bfrows la lb ra rb), x < max la lb + 1) ∧
    (∀ x ∈ savedAf (source_pairing crows afrows bfrows la lb ra rb), x < max la lb + 1) ∧
    (∀ x ∈ savedBf (source_pairing crows afrows bfrows la lb ra rb), x < max la lb + 1) := by
  refine ⟨?_, ?_, ?_, ?_⟩
  · intro x hx
    obtain ⟨r, hr, rfl⟩ := List.mem_map.mp hx
    have := (mem_savedCrpt_countfilter hr).2
    simp only [countfilter, Bool.and_eq_true, decide_eq_true_eq] at this
    exact this.1.1.1.1.1.1.1.1
  · intro x hx
    obtain ⟨r, hr, rfl⟩ := List.mem_map.mp hx
    have := (mem_savedCrpt_countfilter hr).2
    simp only [countfilter, Bool.and_eq_true, decide_eq_true_eq] at this
    exact this.1.1.1.1.1.1.1.2
  · intro x hx
    obtain ⟨r, hr, rfl⟩ := List.mem_map.mp hx
    have := (mem_savedFieldA_afieldfilter hr).2
    simp only [afieldfilter, Bool.and_eq_true, decide_eq_true_eq] at this
    exact this.1
  · intro x hx
    obtain ⟨r, hr, rfl⟩ := List.mem_map.mp hx
    have := (mem_savedFieldB_bfieldfilter hr).2
    simp only [bfieldfilter, Bool.and_eq_true, decide_eq_true_eq] at this
    exact this.1

/-- C1 witness: concrete evaluation of the sentinel-filter theorem. -/
theorem saved_indices_below_sentinel_witness :
    (3 : ℕ) < max 5 5 + 1 :=
  (saved_indices_below_sentinel
    [⟨3, 2, [0, 2], [0], 0, 0, 1, -1, -1, 0⟩] [] [] 5 5 0 0).1 3 (by decide)

/-- Auxiliary: the pair of `warnings.warn` branches for one catalogue
(lines 174-180 or 182-188) emits nothing exactly when the accounting
total matches the catalogue length. -/
theorem warn_branches_empty_iff (t n : ℕ) (s1 s2 : String) :
    ((if t < n then [s1] else []) = [] ∧ (if n < t then [s2] else []) = []) ↔ t = n := by
  split_ifs <;> simp <;> omega

/-- C2: `source_pairing` checks post-hoc (lines 173-188) that counterpart
plus field plus pre-rejected counts reproduce each catalogue's total
length; a mismatch in either direction produces a (non-fatal) warning
and nothing else: the saved output arrays do not depend on the rejected
counts or on the outcome of the check, and the function is total (its
return type has no failure case), so all computed outputs are always
written and returned. -/
theorem accounting_check_warns_nonfatal (crows : List CrptRow) (afrows : List FieldRowA)
    (bfrows : List FieldRowB) (la lb ra rb ra' rb' : ℕ) :
    ((source_pairing crows afrows bfrows la lb ra rb).warnings = [] ↔
      ((source_pairing crows afrows bfrows la lb ra rb).savedCrpt.length +
        (source_pairing crows afrows bfrows la lb ra rb).savedFieldA.length + ra = la ∧
       (source_pairing crows afrows bfrows la lb ra rb).savedCrpt.length +
        (source_pairing crows afrows bfrows la lb ra rb).savedFieldB.length + rb = lb)) ∧
    (source_pairing crows afrows bfrows la lb ra rb).savedCrpt =
      (source_pairing crows afrows bfrows la lb ra' rb').savedCrpt ∧
    (source_pairing crows afrows bfrows la lb ra rb).savedFieldA =
      (source_pairing crows afrows bfrows la lb ra' rb').savedFieldA ∧
    (source_pairing crows afrows bfrows la lb ra rb).savedFieldB =
      (source_pairing crows afrows bfrows la lb ra' rb').savedFieldB := by
  refine ⟨?_, rfl, rfl, rfl⟩
  simp only [source_pairing, List.append_eq_nil]
  rw [warn_branches_empty_iff, warn_branches_empty_iff]

/-- C10: characterisation of which rows survive into the saved
counterpart and field output files.  A counterpart row is kept iff both
its indices are below the sentinel threshold, every contamination
probability entry for both catalogues is non-negative, both
contaminating fluxes are non-negative, the match probability is
non-negative, and both `eta` and `xi` are at least `-30`; a field row is
kept iff its index is below the sentinel and its field probability is
non-negative.  Hence rows are dropped for reasons beyond the sentinel
alone. -/
theorem saved_row_characterisation (crows : List CrptRow) (afrows : List FieldRowA)
    (bfrows : List FieldRowB) (la lb ra rb : ℕ) (r : CrptRow) (fa : FieldRowA)
    (fb : FieldRowB) :
    (r ∈ (source_pairing crows afrows bfrows la lb ra rb).savedCrpt ↔
      (r ∈ crows ∧ r.acountind < max la lb + 1 ∧ r.bcountind < max la lb + 1 ∧
        (∀ p ∈ r.acontamprob, 0 ≤ p) ∧ (∀ p ∈ r.bcontamprob, 0 ≤ p) ∧
        0 ≤ r.acontamflux ∧ 0 ≤ r.bcontamflux ∧ 0 ≤ r.probc ∧
        -30 ≤ r.eta ∧ -30 ≤ r.xi)) ∧
    (fa ∈ (source_pairing crows afrows bfrows la lb ra rb).savedFieldA ↔
      (fa ∈ afrows ∧ fa.afieldind < max la lb + 1 ∧ 0 ≤ fa.probfa)) ∧
    (fb ∈ (source_pairing crows afrows bfrows la lb ra rb).savedFieldB ↔
      (fb ∈ bfrows ∧ fb.bfieldind < max la lb + 1 ∧ 0 ≤ fb.probfb)) := by
  refine ⟨?_, ?_, ?_⟩
  · simp only [source_pairing, List.mem_filter, countfilter, Bool.and_eq_true,
      decide_eq_true_eq, List.all_eq_true]
    tauto
  · simp only [source_pairing, List.mem_filter, afieldfilter, Bool.and_eq_true,
      decide_eq_true_eq]
  · simp only [source_pairing, List.mem_filter, bfieldfilter, Bool.and_eq_true,
      decide_eq_true_eq]

end Macauff

namespace Macauff

/-! ## perturbation_auf.make_perturb_aufs: Dirac-delta dummy outputs

Two branches of `make_perturb_aufs` build, with verbatim-identical code,
a dummy single-pointing-filter AUF output: lines 341-364 (a sky/filter
bin with zero sources while `include_perturb_auf` is True) and lines
390-426 (`include_perturb_auf` is False).  2-D numpy arrays of shape
`(n, num_n_mag)` are modelled as lists of `n` rows of `num_n_mag`
entries; `np.pi` is abstracted as the parameter `np_pi`. -/

/-- One pointing-filter AUF output bundle (the dictionary built at lines
355-363 / 421-426, keys `frac`, `flux`, `offset`, `cumulative`,
`fourier`, `Narray`, `magarray`). -/
structure SinglePerturbAufOutput where
  frac : List (List ℚ)
  flux : List ℚ
  offset : List (List ℚ)
  cumulative : List (List ℚ)
  fourier : List (List ℚ)
  narray : List (List ℚ)
  magarray : List (List ℚ)
  deriving Repr

/-- perturbation_auf.py lines 346-354 and 394-420: the dummy
Dirac-delta AUF output with `num_n_mag = 1`:
`frac = np.zeros((1, num_n_mag))`, `flux = np.zeros(num_n_mag)`,
`offset = np.zeros((len(r)-1, num_n_mag))` followed by
`offset[0, :] = 1 / (2 * np.pi * (r[0] + dr[0]/2) * dr[0])`,
`cumulative = np.ones((len(r)-1, num_n_mag))`,
`fourieroffset = np.ones((j0s.shape[0], num_n_mag))`,
`narray = magarray = np.array([[1]])`.  `n_rho` stands for
`j0s.shape[0]`. -/
def dummy_single_perturb_auf (np_pi : ℚ) (r dr : List ℚ) (n_rho : ℕ) :
    SinglePerturbAufOutput :=
  let num_n_mag := 1
  { frac := [List.replicate num_n_mag 0]
    flux := List.replicate num_n_mag 0
    offset := (List.replicate (r.length - 1) (List.replicate num_n_mag 0)).set 0
      (List.replicate num_n_mag (1 / (2 * np_pi * (r.headD 0 + dr.headD 0 / 2) * dr.headD 0)))
    cumulative := List.replicate (r.length - 1) (List.replicate num_n_mag 1)
    fourier := List.replicate n_rho (List.replicate num_n_mag 1)
    narray := [[1]]
    magarray := [[1]] }

/-- C3: when perturbation modelling is not requested, or a sky/filter bin
has zero sources, `make_perturb_aufs` still emits the full output schema
for the bin and it degenerates to a Dirac delta: every `fourier` entry
(at each of the `j0s.shape[0]` sampled frequencies) equals 1, every
`cumulative` entry (in each of the `len(r)-1` radial bins) equals 1, and
the `offset` PDF is concentrated entirely in the first radial bin with
value `1/(2*pi*(r[0]+dr[0]/2)*dr[0])`, all other bins being 0. -/
theorem dummy_auf_is_dirac_delta (np_pi : ℚ) (r dr : List ℚ) (n_rho : ℕ)
    (hr : 2 ≤ r.length) :
    ((dummy_single_perturb_auf np_pi r dr n_rho).fourier.length = n_rho ∧
      ∀ row ∈ (dummy_single_perturb_auf np_pi r dr n_rho).fourier,
        ∀ x ∈ row, x = 1) ∧
    ((dummy_single_perturb_auf np_pi r dr n_rho).cumulative.length = r.length - 1 ∧
      ∀ row ∈ (dummy_single_perturb_auf np_pi r dr n_rho).cumulative,
        ∀ x ∈ row, x = 1) ∧
    ((dummy_single_perturb_auf np_pi r dr n_rho).offset.get? 0 =
        some [1 / (2 * np_pi * (r.headD 0 + dr.headD 0 / 2) * dr.headD 0)] ∧
      ∀ k row, 0 < k →
        (dummy_single_perturb_auf np_pi r dr n_rho).offset.get? k = some row →
        ∀ x ∈ row, x = 0) := by
  refine ⟨⟨by simp [dummy_single_perturb_auf], ?_⟩,
          ⟨by simp [dummy_single_perturb_auf], ?_⟩, ⟨?_, ?_⟩⟩
  · intro row hrow x hx
    have hrow' := List.eq_of_mem_replicate hrow
    subst hrow'
    exact List.eq_of_mem_replicate hx
  · intro row hrow x hx
    have hrow' := List.eq_of_mem_replicate hrow
    subst hrow'
    exact List.eq_of_mem_replicate hx
  · have hlen : 0 < (List.replicate (r.length - 1) (List.replicate 1 (0 : ℚ))).length := by
      simp; omega
    simp only [dummy_single_perturb_auf, List.get?_eq_getElem?]
    rw [List.getElem?_set_eq_of_lt _ hlen]
    rfl
  · intro k row hk hget x hx
    simp only [dummy_single_perturb_auf, List.get?_eq_getElem?] at hget
    rw [List.getElem?_set_ne (by omega), List.getElem?_replicate] at hget
    split at hget
    · cases hget
      exact List.eq_of_mem_replicate hx
    · cases hget

/-- C3 witness: concrete evaluation of the Dirac-delta theorem at
`r = [0, 1, 2]`, `dr = [1, 1]`, two frequency samples. -/
theorem dummy_auf_is_dirac_delta_witness :
    (dummy_single_perturb_auf (22/7) [0, 1, 2] [1, 1] 2).offset.get? 0 =
      some [1 / (2 * (22/7 : ℚ) * ((0 : ℚ) + 1 / 2) * 1)] := by
  have h := (dummy_auf_is_dirac_delta (22/7) [0, 1, 2] [1, 1] 2 (by decide)).2.2.1
  simpa using h

end Macauff

namespace Macauff

/-! ## perturbation_auf.create_single_perturb_auf: bright-source check

Lines 894-909: after obtaining `n_bright_sources_star` from
`make_tri_counts` and the star/galaxy integrated model counts
`tri_count`/`gal_count`, the function computes a usable bright-source
total and aborts the tile/filter when it falls below 100.  Python's
`int(...)` truncates toward zero. -/

/-- Python `int()` applied to a (rational-modelled) float: truncation
toward zero. -/
def pythonInt (q : ℚ) : ℤ := if 0 ≤ q then ⌊q⌋ else ⌈q⌉

/-- perturbation_auf.py lines 894-904: the usable bright-source total.
With galaxy fitting, `n_bright_sources_gal = int(gal_count / tri_count *
n_bright_sources_star)` and the total is star + galaxy; without it, the
total is `n_bright_sources_star` alone. -/
def tot_n_bright_sources (fit_gal_flag : Bool) (gal_count tri_count : ℚ)
    (n_bright_sources_star : ℤ) : ℤ :=
  if fit_gal_flag then
    n_bright_sources_star + pythonInt (gal_count / tri_count * n_bright_sources_star)
  else
    n_bright_sources_star

/-- perturbation_auf.py lines 894-909: the data-sufficiency gate of
`create_single_perturb_auf`.  Raises (returns `Except.error`) when the
usable bright-source total is below 100; otherwise the simulation
proceeds (modelled by returning the total to the continuation). -/
def bright_sources_check (fit_gal_flag : Bool) (gal_count tri_count : ℚ)
    (n_bright_sources_star : ℤ) : Except String ℤ :=
  let tot := tot_n_bright_sources fit_gal_flag gal_count tri_count n_bright_sources_star
  if tot < 100 then
    .error ("The number of simulated objects in this sky patch is too low to " ++
      "reliably derive a model source density. Please include " ++
      "more simulated objects.")
  else
    .ok tot

/-- C7: `create_single_perturb_auf` raises a fatal `ValueError` for a
tile/filter exactly when the usable bright-source total is below 100,
where — when galaxy counts are fitted — galaxies contribute
`int(gal_count / tri_count * n_bright_sources_star)` (the star count
scaled by the bright-density ratio, truncated); it never proceeds to the
density estimate in that case. -/
theorem bright_sources_check_fatal_below_100 (fit_gal_flag : Bool)
    (gal_count tri_count : ℚ) (n_star : ℤ)
    (hg : 0 ≤ gal_count) (ht : 0 < tri_count) :
    ((∃ e, bright_sources_check fit_gal_flag gal_count tri_count n_star = .error e) ↔
      tot_n_bright_sources fit_gal_flag gal_count tri_count n_star < 100) ∧
    (∀ v, bright_sources_check fit_gal_flag gal_count tri_count n_star = .ok v →
      100 ≤ v) ∧
    (fit_gal_flag = true → 0 ≤ n_star →
      tot_n_bright_sources fit_gal_flag gal_count tri_count n_star =
        n_star + ⌊gal_count / tri_count * n_star⌋) := by
  refine ⟨?_, ?_, ?_⟩
  · simp only [bright_sources_check]
    split
    · simp_all
    · simp_all
  · intro v hv
    simp only [bright_sources_check] at hv
    split at hv
    · cases hv
    · cases hv; omega
  · intro hfit hn
    have hq : (0 : ℚ) ≤ gal_count / tri_count * n_star := by
      apply mul_nonneg (div_nonneg hg ht.le)
      exact_mod_cast hn
    simp [tot_n_bright_sources, hfit, pythonInt, hq]

/-- C7 witness: with 50 simulated stars and galaxy fitting contributing
`int(1/2 * 50) = 25` more, the total 75 is below 100 and the error is
raised. -/
theorem bright_sources_check_fatal_below_100_witness :
    ((∃ e, bright_sources_check true 1 2 50 = .error e) ↔
      tot_n_bright_sources true 1 2 50 < 100) ∧
    (∀ v, bright_sources_check true 1 2 50 = .ok v → 100 ≤ v) ∧
    (true = true → (0 : ℤ) ≤ 50 →
      tot_n_bright_sources true 1 2 50 = 50 + ⌊(1 : ℚ) / 2 * (50 : ℤ)⌋) :=
  bright_sources_check_fatal_below_100 true 1 2 50 (by norm_num) (by norm_num)

end Macauff

namespace Macauff

/-! ## perturbation_auf.make_perturb_aufs: eager configuration validation

Lines 194-256 run before any other statement of `make_perturb_aufs`
(the first catalogue load is at line 261): a fixed sequence of
`if <mode-flag> and <param> is None: raise ValueError(...)` checks.
Optional parameters are modelled as `Option` values; for parameters
whose payload the checks never inspect the payload type is `Unit`.
Python truthiness of an optional boolean (`include_perturb_auf and
run_psf and ...`) is `none`/`some false` falsy, `some true` truthy. -/

/-- Python truthiness of an optional boolean parameter. -/
def pyTruthy (o : Option Bool) : Bool := o.getD false

/-- The optional-parameter surface of `make_perturb_aufs`
(perturbation_auf.py lines 31-37), restricted to presence/absence and
the booleans the validation sequence inspects. -/
structure PerturbAufConfig where
  include_perturb_auf : Bool
  tri_set_name : Option String
  tri_filt_num : Option ℕ
  tri_filt_names : Option Unit
  tri_maglim_faint : Option ℚ
  tri_num_faint : Option ℕ
  auf_region_frame : Option String
  delta_mag_cuts : Option Unit
  psf_fwhms : Option Unit
  num_trials : Option ℕ
  j0s : Option Unit
  d_mag : Option ℚ
  run_fw : Option Bool
  run_psf : Option Bool
  dd_params : Option Unit
  l_cut : Option Unit
  snr_mag_params : Option Unit
  al_avs : Option Unit
  density_radius : Option ℚ
  fit_gal_flag : Option Bool
  cmau_array : Option Unit
  wavs : Option Unit
  z_maxs : Option Unit
  nzs : Option Unit
  ab_offsets : Option Unit
  filter_names : Option Unit
  alpha0 : Option Unit
  alpha1 : Option Unit
  alpha_weight : Option Unit
  deriving DecidableEq, Repr

/-- perturbation_auf.py lines 194-256: the eager validation sequence of
`make_perturb_aufs`, in source order, including the dummy-array
substitutions for `dd_params` (lines 222-224) and `l_cut` (lines
227-229).  Returns the (possibly substituted) configuration, or the
`ValueError` message of the first failing check. -/
def make_perturb_aufs_validate (c : PerturbAufConfig) :
    Except String PerturbAufConfig :=
  if c.include_perturb_auf && c.tri_set_name.isNone then
    .error "tri_set_name must be given if include_perturb_auf is True."
  else if c.include_perturb_auf && c.tri_filt_num.isNone then
    .error "tri_filt_num must be given if include_perturb_auf is True."
  else if c.include_perturb_auf && c.tri_filt_names.isNone then
    .error "tri_filt_names must be given if include_perturb_auf is True."
  else if c.include_perturb_auf && c.tri_maglim_faint.isNone then
    .error "tri_maglim_faint must be given if include_perturb_auf is True."
  else if c.include_perturb_auf && c.tri_num_faint.isNone then
    .error "tri_num_faint must be given if include_perturb_auf is True."
  else if c.include_perturb_auf && c.auf_region_frame.isNone then
    .error "auf_region_frame must be given if include_perturb_auf is True."
  else if c.include_perturb_auf && c.delta_mag_cuts.isNone then
    .error "delta_mag_cuts must be given if include_perturb_auf is True."
  else if c.include_perturb_auf && c.psf_fwhms.isNone then
    .error "psf_fwhms must be given if include_perturb_auf is True."
  else if c.include_perturb_auf && c.num_trials.isNone then
    .error "num_trials must be given if include_perturb_auf is True."
  else if c.include_perturb_auf && c.j0s.isNone then
    .error "j0s must be given if include_perturb_auf is True."
  else if c.include_perturb_auf && c.d_mag.isNone then
    .error "d_mag must be given if include_perturb_auf is True."
  else if c.include_perturb_auf && c.run_fw.isNone then
    .error "run_fw must be given if include_perturb_auf is True."
  else if c.include_perturb_auf && c.run_psf.isNone then
    .error "run_psf must be given if include_perturb_auf is True."
  else if c.include_perturb_auf && pyTruthy c.run_psf && c.dd_params.isNone then
    .error "dd_params must be given if include_perturb_auf and run_psf are True."
  else
  -- lines 222-224: substitute a dummy dd_params array for the fw-only case
  let c1 := if c.include_perturb_auf && c.dd_params.isNone then
    { c with dd_params := some () } else c
  if c1.include_perturb_auf && pyTruthy c1.run_psf && c1.l_cut.isNone then
    .error "l_cut must be given if include_perturb_auf and run_psf are True."
  else
  -- lines 227-229: substitute a dummy l_cut array for the fw-only case
  let c2 := if c1.include_perturb_auf && c1.l_cut.isNone then
    { c1 with l_cut := some () } else c1
  if c2.include_perturb_auf && c2.snr_mag_params.isNone then
    .error "snr_mag_params must be given if include_perturb_auf is True."
  else if c2.include_perturb_auf && c2.al_avs.isNone then
    .error "al_avs must be given if include_perturb_auf is True."
  else if c2.include_perturb_auf && c2.density_radius.isNone then
    .error "density_radius must be given if include_perturb_auf is True."
  else if c2.include_perturb_auf && c2.fit_gal_flag.isNone then
    .error "fit_gal_flag must not be None if include_perturb_auf is True."
  else if c2.include_perturb_auf && pyTruthy c2.fit_gal_flag && c2.cmau_array.isNone then
    .error "cmau_array must be given if fit_gal_flag is True."
  else if c2.include_perturb_auf && pyTruthy c2.fit_gal_flag && c2.wavs.isNone then
    .error "wavs must be given if fit_gal_flag is True."
  else if c2.include_perturb_auf && pyTruthy c2.fit_gal_flag && c2.z_maxs.isNone then
    .error "z_maxs must be given if fit_gal_flag is True."
  else if c2.include_perturb_auf && pyTruthy c2.fit_gal_flag && c2.nzs.isNone then
    .error "nzs must be given if fit_gal_flag is True."
  else if c2.include_perturb_auf && pyTruthy c2.fit_gal_flag && c2.ab_offsets.isNone then
    .error "ab_offsets must be given if fit_gal_flag is True."
  else if c2.include_perturb_auf && pyTruthy c2.fit_gal_flag && c2.filter_names.isNone then
    .error "filter_names must be given if fit_gal_flag is True."
  else if c2.include_perturb_auf && pyTruthy c2.fit_gal_flag && c2.alpha0.isNone then
    .error "alpha0 must be given if fit_gal_flag is True."
  else if c2.include_perturb_auf && pyTruthy c2.fit_gal_flag && c2.alpha1.isNone then
    .error "alpha1 must be given if fit_gal_flag is True."
  else if c2.include_perturb_auf && pyTruthy c2.fit_gal_flag && c2.alpha_weight.isNone then
    .error "alpha_weight must be given if fit_gal_flag is True."
  else
    .ok c2

/-- C8: with perturbation modelling requested and the background-limited
PSF mode selected (`include_perturb_auf` True, `run_psf` truthy), and
all parameters checked earlier in the sequence present, the eager
validation of `make_perturb_aufs` (which precedes any simulation work:
lines 194-256 run before the first data access at line 261) raises a
`ValueError` naming `dd_params` when `dd_params` is missing, and naming
`l_cut` when `dd_params` is present but `l_cut` is missing. -/
theorem validate_psf_mode_missing_params (c : PerturbAufConfig)
    (hip : c.include_perturb_auf = true)
    (h1 : c.tri_set_name.isNone = false) (h2 : c.tri_filt_num.isNone = false)
    (h3 : c.tri_filt_names.isNone = false) (h4 : c.tri_maglim_faint.isNone = false)
    (h5 : c.tri_num_faint.isNone = false) (h6 : c.auf_region_frame.isNone = false)
    (h7 : c.delta_mag_cuts.isNone = false) (h8 : c.psf_fwhms.isNone = false)
    (h9 : c.num_trials.isNone = false) (h10 : c.j0s.isNone = false)
    (h11 : c.d_mag.isNone = false) (h12 : c.run_fw.isNone = false)
    (hpsf : c.run_psf = some true) :
    (c.dd_params = none →
      make_perturb_aufs_validate c =
        .error "dd_params must be given if include_perturb_auf and run_psf are True.") ∧
    (c.dd_params.isNone = false → c.l_cut = none →
      make_perturb_aufs_validate c =
        .error "l_cut must be given if include_perturb_auf and run_psf are True.") := by
  constructor
  · intro hdd
    simp [make_perturb_aufs_validate, hip, h1, h2, h3, h4, h5, h6, h7, h8, h9, h10,
      h11, h12, hpsf, hdd, pyTruthy]
  · intro hdd hlc
    simp [make_perturb_aufs_validate, hip, h1, h2, h3, h4, h5, h6, h7, h8, h9, h10,
      h11, h12, hpsf, hdd, hlc, pyTruthy]

/-- C8 witness: a concrete configuration in background-limited-PSF mode
with `dd_params` missing is rejected with the message naming
`dd_params`. -/
theorem validate_psf_mode_missing_params_witness :
    make_perturb_aufs_validate
      { include_perturb_auf := true, tri_set_name := some "set",
        tri_filt_num := some 0, tri_filt_names := some (),
        tri_maglim_faint := some 30, tri_num_faint := some 1000000,
        auf_region_frame := some "equatorial", delta_mag_cuts := some (),
        psf_fwhms := some (), num_trials := some 10000, j0s := some (),
        d_mag := some (1/10), run_fw := some true, run_psf := some true,
        dd_params := none, l_cut := none, snr_mag_params := some (),
        al_avs := some (), density_radius := some (1/4),
        fit_gal_flag := some false, cmau_array := none, wavs := none,
        z_maxs := none, nzs := none, ab_offsets := none,
        filter_names := none, alpha0 := none, alpha1 := none,
        alpha_weight := none } =
      .error "dd_params must be given if include_perturb_auf and run_psf are True." :=
  (validate_psf_mode_missing_params
    { include_perturb_auf := true, tri_set_name := some "set",
        tri_filt_num := some 0, tri_filt_names := some (),
        tri_maglim_faint := some 30, tri_num_faint := some 1000000,
        auf_region_frame := some "equatorial", delta_mag_cuts := some (),
        psf_fwhms := some (), num_trials := some 10000, j0s := some (),
        d_mag := some (1/10), run_fw := some true, run_psf := some true,
        dd_params := none, l_cut := none, snr_mag_params := some (),
        al_avs := some (), density_radius := some (1/4),
        fit_gal_flag := some false, cmau_array := none, wavs := none,
        z_maxs := none, nzs := none, ab_offsets := none,
        filter_names := none, alpha0 := none, alpha1 := none,
        alpha_weight := none } rfl rfl rfl rfl rfl rfl rfl rfl rfl rfl rfl rfl rfl rfl).1 rfl

end Macauff

namespace Macauff

/-! ## perturbation_auf.download_trilegal_simulation (lines 544-637)

The network interaction is modelled as a trace of events, one per
`get_trilegal` call: either the SIGALRM hard timeout fires during the
call (`alarmInterrupt`, raising the `TimeoutException` of lines 544-548
caught at line 583), or the call returns with result `"timeout"`
(internal busy retry), `"nocomm"`, or a good download whose file holds
`nobjs` objects.  Real-time aspects (the 11-minute alarm duration) are
outside the model; only the control flow driven by the events is. -/

/-- One `get_trilegal` call outcome, as observed by
`download_trilegal_simulation`. -/
inductive TriCallResult where
  | alarmInterrupt : TriCallResult
  | strTimeout : TriCallResult
  | nocomm : TriCallResult
  | good : ℕ → TriCallResult
  deriving DecidableEq, Repr

/-- Final outcome of `download_trilegal_simulation`. -/
inductive DownloadOutcome where
  | completed : ℚ → DownloadOutcome
  | fatalHTTPError : DownloadOutcome
  | noMoreEvents : DownloadOutcome
  deriving DecidableEq, Repr

/-- perturbation_auf.py lines 625-631: when the accepted area came from a
rescaling run (`accept_results` False), the simulation is re-downloaded
at the final area, retrying while the result is `"timeout"` (no alarm is
armed here, line 593 cleared it). -/
def final_redownload (events : List TriCallResult) (triarea : ℚ) : DownloadOutcome :=
  match events with
  | [] => .noMoreEvents
  | .strTimeout :: evs => final_redownload evs triarea
  | _ :: _ => .completed triarea

/-- perturbation_auf.py lines 550-631: the area-acquisition loop of
`download_trilegal_simulation`.  State: `triarea` (current requested
area), `area_halved` (whether a SIGALRM timeout ever halved the area,
line 585), `nocomm_count` (non-communication counter, reset to 0 at the
start of each `try` block, line 563).  Transitions per event:

* SIGALRM interrupt (lines 583-589): halve `triarea`, set `area_halved`,
  `continue` the outer loop (which re-enters the `try`, resetting
  `nocomm_count`).
* result `"timeout"` (line 564): re-call `get_trilegal`.
* result `"nocomm"` (lines 576-582): increment `nocomm_count`; once it
  reaches 5, raise `requests.exceptions.HTTPError`.
* good result (lines 594-631): read `nobjs`; if `nobjs < 10000` and the
  area was never halved, grow the area tenfold (capped at 10 sq deg,
  accepting the cap as final); else if `nobjs < total_objs` and the area
  was never halved, rescale the area to target `total_objs` counts and
  re-download; otherwise accept the run. -/
def download_sim_loop (events : List TriCallResult) (triarea : ℚ)
    (area_halved : Bool) (nocomm_count : ℕ) (total_objs : ℚ) : DownloadOutcome :=
  match events with
  | [] => .noMoreEvents
  | .alarmInterrupt :: evs =>
      download_sim_loop evs (triarea / 2) true 0 total_objs
  | .strTimeout :: evs =>
      download_sim_loop evs triarea area_halved nocomm_count total_objs
  | .nocomm :: evs =>
      if 5 ≤ nocomm_count + 1 then .fatalHTTPError
      else download_sim_loop evs triarea area_halved (nocomm_count + 1) total_objs
  | .good nobjs :: evs =>
      if nobjs < 10000 && !area_halved then
        let triarea' := min 10 (triarea * 10)
        if triarea' = 10 then final_redownload evs triarea'
        else download_sim_loop evs triarea' area_halved 0 total_objs
      else if (nobjs : ℚ) < total_objs && !area_halved then
        final_redownload evs (min 10 (triarea / nobjs * total_objs))
      else .completed triarea

/-- C9: in `download_trilegal_simulation`, each firing of the hard
timeout halves the requested simulation area and retries the call (with
the non-communication counter freshly reset), and five consecutive
non-communicating responses within one attempt escalate to the fatal
`requests.exceptions.HTTPError` instead of any further retry, whatever
events follow. -/
theorem download_timeout_halves_and_nocomm_fatal (evs : List TriCallResult)
    (triarea total_objs : ℚ) (area_halved : Bool) (nocomm_count : ℕ) :
    (download_sim_loop (.alarmInterrupt :: evs) triarea area_halved nocomm_count
        total_objs =
      download_sim_loop evs (triarea / 2) true 0 total_objs) ∧
    (download_sim_loop (List.replicate 5 .nocomm ++ evs) triarea area_halved 0
        total_objs = .fatalHTTPError) :=
  ⟨rfl, rfl⟩

end Macauff

namespace Macauff

/-! ## group_sources._load_cumulative_grid_cutouts

The function itself lives in `group_sources.py`, which is not part of
the available sources (only its test,
`test_group_sources.test_load_cumulative_grid_cutouts`, is).  It is
therefore modelled from the spec (section 4.2): given the full
astrometry array, a rectangle `[ax1_min, ax1_max, ax2_min, ax2_max]` and
a padding in degrees, return (a) the row subset inside the padded
rectangle, (b) the unique set of grid columns referenced by any included
source as a dense cutout indexed `0..K-1`, and (c) the remapped
reference-index array in the compacted index space. -/

/-- One catalogue row as seen by the cutout engine: position, circular
positional uncertainty, and the `(density-combo, filter, tile)` model
reference index of the source. -/
structure CutoutRow where
  lon : ℚ
  lat : ℚ
  err : ℚ
  refind : ℕ × ℕ × ℕ
  deriving DecidableEq, Repr

/-- Membership of a position in the rectangle expanded by `pad` on every
side. -/
def in_padded_rect (lon lat lo1 hi1 lo2 hi2 pad : ℚ) : Bool :=
  decide (lo1 - pad ≤ lon) && decide (lon ≤ hi1 + pad) &&
  decide (lo2 - pad ≤ lat) && decide (lat ≤ hi2 + pad)

/-- Modelled from the spec: `_load_cumulative_grid_cutouts`
(group_sources.py, not under the available sources; spec section 4.2 and
test `test_load_cumulative_grid_cutouts`).  Selects the rows inside the
padded rectangle, compacts the distinct referenced grid combos into a
dense `0..K-1` cutout, and remaps each kept row's reference index into
the compacted space. -/
def load_cumulative_grid_cutouts (rows : List CutoutRow)
    (lo1 hi1 lo2 hi2 padding : ℚ) :
    List CutoutRow × List (ℕ × ℕ × ℕ) × List ℕ :=
  let kept := rows.filter (fun r => in_padded_rect r.lon r.lat lo1 hi1 lo2 hi2 padding)
  let combos := (kept.map (fun r => r.refind)).dedup
  let remapped := kept.map (fun r => combos.indexOf r.refind)
  (kept, combos, remapped)

/-- Distance-squared from a point to the rectangle (via the closest
point, each coordinate clamped to the rectangle's extent). -/
def rect_dist_sq (lon lat lo1 hi1 lo2 hi2 : ℚ) : ℚ :=
  (lon - max lo1 (min lon hi1)) ^ 2 + (lat - max lo2 (min lat hi2)) ^ 2

/-- A source's error circle overlaps the exact rectangle when the
closest rectangle point is within `err` of the source position. -/
def err_circle_overlaps_rect (r : CutoutRow) (lo1 hi1 lo2 hi2 : ℚ) : Bool :=
  decide (rect_dist_sq r.lon r.lat lo1 hi1 lo2 hi2 ≤ r.err ^ 2)

/-- C6 (spec-modelled): for every astrometry array, rectangle and pair of
paddings `p1 ≤ p2`, the row set and the compacted grid-combo set
returned with padding `p2` contain those returned with padding `p1`;
and with padding 0, any source whose error circle does not overlap the
exact rectangle is excluded. -/
theorem grid_cutout_padding_monotone (rows : List CutoutRow)
    (lo1 hi1 lo2 hi2 p1 p2 : ℚ) (hp : p1 ≤ p2) :
    (∀ r ∈ (load_cumulative_grid_cutouts rows lo1 hi1 lo2 hi2 p1).1,
      r ∈ (load_cumulative_grid_cutouts rows lo1 hi1 lo2 hi2 p2).1) ∧
    (∀ cb ∈ (load_cumulative_grid_cutouts rows lo1 hi1 lo2 hi2 p1).2.1,
      cb ∈ (load_cumulative_grid_cutouts rows lo1 hi1 lo2 hi2 p2).2.1) ∧
    (∀ r ∈ rows, err_circle_overlaps_rect r lo1 hi1 lo2 hi2 = false →
      r ∉ (load_cumulative_grid_cutouts rows lo1 hi1 lo2 hi2 0).1) := by
  have hmono : ∀ r ∈ (load_cumulative_grid_cutouts rows lo1 hi1 lo2 hi2 p1).1,
      r ∈ (load_cumulative_grid_cutouts rows lo1 hi1 lo2 hi2 p2).1 := by
    intro r hr
    simp only [load_cumulative_grid_cutouts, List.mem_filter, in_padded_rect,
      Bool.and_eq_true, decide_eq_true_eq] at hr ⊢
    obtain ⟨hmem, ⟨⟨⟨a1, a2⟩, a3⟩, a4⟩⟩ := hr
    exact ⟨hmem, ⟨⟨⟨by linarith, by linarith⟩, by linarith⟩, by linarith⟩⟩
  refine ⟨hmono, ?_, ?_⟩
  · intro cb hcb
    simp only [load_cumulative_grid_cutouts, List.mem_dedup] at hcb ⊢
    obtain ⟨r, hr, rfl⟩ := List.mem_map.mp hcb
    exact List.mem_map.mpr ⟨r, hmono r hr, rfl⟩
  · intro r _ hov hkept
    simp only [load_cumulative_grid_cutouts, List.mem_filter, in_padded_rect,
      Bool.and_eq_true, decide_eq_true_eq] at hkept
    obtain ⟨_, ⟨⟨⟨a1, a2⟩, a3⟩, a4⟩⟩ := hkept
    -- position inside the exact rectangle makes the clamped point the
    -- position itself, so the overlap distance is zero
    have hclamp1 : max lo1 (min r.lon hi1) = r.lon := by
      rw [min_eq_left (by linarith), max_eq_right (by linarith)]
    have hclamp2 : max lo2 (min r.lat hi2) = r.lat := by
      rw [min_eq_left (by linarith), max_eq_right (by linarith)]
    simp only [err_circle_overlaps_rect, rect_dist_sq, hclamp1, hclamp2,
      decide_eq_false_iff_not, not_le, sub_self] at hov
    nlinarith [sq_nonneg r.err]

/-- C6 witness: concrete evaluation with one in-rectangle source,
paddings 0 and 1. -/
theorem grid_cutout_padding_monotone_witness :
    (⟨50, 50, 1, (0, 2, 1)⟩ : CutoutRow) ∈
      (load_cumulative_grid_cutouts [⟨50, 50, 1, (0, 2, 1)⟩] 40 60 40 60 1).1 :=
  (grid_cutout_padding_monotone [⟨50, 50, 1, (0, 2, 1)⟩] 40 60 40 60 0 1
    (by norm_num)).1 ⟨50, 50, 1, (0, 2, 1)⟩
    (by simp only [load_cumulative_grid_cutouts, List.mem_filter, in_padded_rect]
        norm_num)

end Macauff

namespace Macauff

/-! ## perturbation_auf._calculate_magnitude_offsets (lines 1213-1278)

Pure numerics over parallel arrays.  `np.log10`, `10**x` and `np.pi` are
abstracted as the parameters `np_log10`, `exp10`, `np_pi`; the threshold
`-np.log(0.01)` is `-np_log (1/100)` for an abstract `np_log`.  The
model-count triple `(model_mag_mids[j], log10y[j],
model_mags_interval[j])` is manipulated as a zipped list. -/

/-- `np.cumsum` on a 1-D array: running partial sums. -/
def np_cumsum : List ℚ → List ℚ
  | [] => []
  | x :: xs => x :: (np_cumsum xs).map (fun s => x + s)

/-- `np.where(pred)[0][0]`-style first index satisfying a predicate
(`q[0]` at line 1270, guarded by `len(q) > 0`). -/
def np_where_first (p : ℚ → Bool) : List ℚ → Option ℕ
  | [] => none
  | x :: xs => if p x then some 0 else (np_where_first p xs).map (fun k => k + 1)

/-- The expected-perturber-count contribution of one model bin `t =
(model_mag_mids[j], log10y[j], model_mags_interval[j])` for a source with
local density `count_i`:
`10**log10y[j] * model_mags_interval[j] * np.pi * (r/3600)**2 *
count_array[i] / n_norm` (line 1257). -/
def perturber_count_term (exp10 : ℚ → ℚ) (np_pi r n_norm count_i : ℚ)
    (t : ℚ × ℚ × ℚ) : ℚ :=
  exp10 t.2.1 * t.2.2 * np_pi * (r / 3600) ^ 2 * count_i / n_norm

/-- perturbation_auf.py lines 1253-1274, one iteration of the
`for i, mag in enumerate(mag_array)` loop: select model bins with
`model_mag_mids >= mag`, form
`_y = 10**log10y[q] * model_mags_interval[q] * np.pi * (r/3600)**2 *
count_array[i] / n_norm`, accumulate `lamb = np.cumsum(_y)`, and return
`_x[q[0]] - mag` for the first index with `lamb >= -np.log(0.01)`, or
`_x[-1] - mag` when no such index exists. -/
def dm_max_no_perturb_at (exp10 : ℚ → ℚ) (np_pi thr r n_norm count_i mag : ℚ)
    (model : List (ℚ × ℚ × ℚ)) : ℚ :=
  let sel := model.filter (fun t => decide (mag ≤ t.1))
  let x_sel := sel.map (fun t => t.1)
  let y_sel := sel.map (perturber_count_term exp10 np_pi r n_norm count_i)
  let lamb := np_cumsum y_sel
  match np_where_first (fun l => decide (thr ≤ l)) lamb with
  | some q0 => x_sel.getD q0 0 - mag
  | none => x_sel.getLastD 0 - mag

/-- perturbation_auf.py lines 1213-1278, `_calculate_magnitude_offsets`:
`dm_max_snr = -2.5 * np.log10(b / snr)` elementwise, the per-magnitude
no-perturber depth above, and `dm = np.maximum(dm_max_snr,
dm_max_no_perturb)`. -/
def _calculate_magnitude_offsets (np_log10 exp10 np_log : ℚ → ℚ) (np_pi : ℚ)
    (count_array mag_array : List ℚ) (b : ℚ) (snr : List ℚ)
    (model_mag_mids log10y model_mags_interval : List ℚ) (r n_norm : ℚ) :
    List ℚ :=
  let thr := -np_log (1 / 100)
  let model := model_mag_mids.zip (log10y.zip model_mags_interval)
  (List.range mag_array.length).map (fun i =>
    max (-(5 / 2) * np_log10 (b / snr.getD i 0))
      (dm_max_no_perturb_at exp10 np_pi thr r n_norm (count_array.getD i 0)
        (mag_array.getD i 0) model))

/-- Stated from the claim's words: the candidate simulated-perturber
offsets for a source of magnitude `mag`, one per model bin at least as
faint as the source. -/
def claimOffsets (model : List (ℚ × ℚ × ℚ)) (mag : ℚ) : List ℚ :=
  (model.filter (fun t => decide (mag ≤ t.1))).map (fun t => t.1 - mag)

/-- Stated from the claim's words: the cumulative expected perturber
count within magnitude offset `o` of a `mag`-magnitude source. -/
def claimCumulCount (exp10 : ℚ → ℚ) (np_pi r n_norm count_i mag o : ℚ)
    (model : List (ℚ × ℚ × ℚ)) : ℚ :=
  ((model.filter (fun t => decide (mag ≤ t.1) && decide (t.1 ≤ mag + o))).map
    (perturber_count_term exp10 np_pi r n_norm count_i)).sum

end Macauff

namespace Macauff

theorem np_cumsum_length (l : List ℚ) : (np_cumsum l).length = l.length := by
  induction l with
  | nil => rfl
  | cons x xs ih => simp [np_cumsum, ih]

theorem np_cumsum_getElem (l : List ℚ) (k : ℕ) (hk : k < l.length) :
    (np_cumsum l)[k]? = some ((l.take (k + 1)).sum) := by
  induction l generalizing k with
  | nil => simp at hk
  | cons x xs ih =>
    cases k with
    | zero => simp [np_cumsum]
    | succ k =>
      simp only [np_cumsum, List.getElem?_cons_succ, List.getElem?_map]
      rw [ih k (by simpa using hk)]
      simp

theorem np_where_first_eq_some (p : ℚ → Bool) (l : List ℚ) (k : ℕ)
    (h : np_where_first p l = some k) :
    (∃ v, l[k]? = some v ∧ p v = true) ∧
      ∀ j v, j < k → l[j]? = some v → p v = false := by
  induction l generalizing k with
  | nil => simp [np_where_first] at h
  | cons x xs ih =>
    simp only [np_where_first] at h
    split at h
    · cases h
      exact ⟨⟨x, by simp, by assumption⟩, fun j v hj => by omega⟩
    · rcases Option.map_eq_some'.mp h with ⟨k', hk', rfl⟩
      obtain ⟨⟨v, hv, hpv⟩, hbefore⟩ := ih k' hk'
      refine ⟨⟨v, by simpa using hv, hpv⟩, ?_⟩
      intro j w hj hw
      cases j with
      | zero =>
        simp only [List.getElem?_cons_zero] at hw
        cases hw
        simpa using ‹¬p x = true›
      | succ j =>
        simp only [List.getElem?_cons_succ] at hw
        exact hbefore j w (by omega) hw

theorem np_where_first_eq_none (p : ℚ → Bool) (l : List ℚ)
    (h : np_where_first p l = none) : ∀ v ∈ l, p v = false := by
  induction l with
  | nil => simp
  | cons x xs ih =>
    simp only [np_where_first] at h
    split at h
    · cases h
    · intro v hv
      rcases List.mem_cons.mp hv with rfl | hv'
      · simpa using ‹¬p v = true›
      · exact ih (by simpa using h) v hv'

/-- On a list strictly sorted in its first component, filtering by
`fst ≤ l[k].fst` keeps exactly the first `k + 1` entries. -/
theorem filter_le_eq_take (l : List (ℚ × ℚ × ℚ))
    (hs : l.Pairwise (fun a b => a.1 < b.1)) (k : ℕ) (xk : ℚ × ℚ × ℚ)
    (hk : l[k]? = some xk) :
    l.filter (fun t => decide (t.1 ≤ xk.1)) = l.take (k + 1) := by
  induction l generalizing k with
  | nil => simp at hk
  | cons a tl ih =>
    rcases List.pairwise_cons.mp hs with ⟨ha, htl⟩
    cases k with
    | zero =>
      simp only [List.getElem?_cons_zero] at hk
      cases hk
      rw [List.filter_cons, if_pos (by simp), List.take_succ_cons, List.take_zero]
      congr 1
      rw [List.filter_eq_nil_iff]
      intro t ht
      have := ha t ht
      simp only [decide_eq_true_eq, not_le]
      linarith
    | succ k =>
      simp only [List.getElem?_cons_succ] at hk
      have hmem : xk ∈ tl := List.getElem?_mem hk
      have hax : a.1 < xk.1 := ha xk hmem
      rw [List.filter_cons, if_pos (by simp [le_of_lt hax]), List.take_succ_cons,
        ih htl k hk]

theorem sorted_fst_le (l : List (ℚ × ℚ × ℚ))
    (hs : l.Pairwise (fun a b => a.1 < b.1)) (i j : ℕ) (hij : i ≤ j)
    (hj : j < l.length) :
    (l.get ⟨i, lt_of_le_of_lt hij hj⟩).1 ≤ (l.get ⟨j, hj⟩).1 := by
  rcases eq_or_lt_of_le hij with rfl | hlt
  · exact le_refl _
  · exact le_of_lt ((List.pairwise_iff_get.mp hs) ⟨i, _⟩ ⟨j, _⟩ hlt)

/-- The claim-side cumulative expected count through the offset of the
`k`-th selected model bin equals the code-side partial sum of `_y`. -/
theorem cumul_at_index (exp10 : ℚ → ℚ) (np_pi r n_norm count_i mag : ℚ)
    (model : List (ℚ × ℚ × ℚ))
    (hs : model.Pairwise (fun a b => a.1 < b.1))
    (k : ℕ) (xk : ℚ × ℚ × ℚ)
    (hk : (model.filter (fun t => decide (mag ≤ t.1)))[k]? = some xk) :
    claimCumulCount exp10 np_pi r n_norm count_i mag (xk.1 - mag) model =
      (((model.filter (fun t => decide (mag ≤ t.1))).map
        (perturber_count_term exp10 np_pi r n_norm count_i)).take (k + 1)).sum := by
  unfold claimCumulCount
  have hmag : mag + (xk.1 - mag) = xk.1 := by ring
  simp only [hmag]
  have hsel : model.filter (fun t => decide (mag ≤ t.1) && decide (t.1 ≤ xk.1)) =
      (model.filter (fun t => decide (mag ≤ t.1))).filter
        (fun t => decide (t.1 ≤ xk.1)) := by
    rw [List.filter_filter]
    exact List.filter_congr (fun t _ => by rw [Bool.and_comm])
  rw [hsel, filter_le_eq_take _ (hs.filter _) k xk hk, List.map_take]

/-- The no-perturber depth of lines 1253-1274 is the smallest candidate
offset whose cumulative expected count reaches the threshold, or the
deepest candidate offset when none does. -/
theorem dm_max_no_perturb_at_spec (exp10 : ℚ → ℚ) (np_pi thr r n_norm count_i mag : ℚ)
    (model : List (ℚ × ℚ × ℚ))
    (hsort : model.Pairwise (fun a b => a.1 < b.1))
    (hne : model.filter (fun t => decide (mag ≤ t.1)) ≠ []) :
    dm_max_no_perturb_at exp10 np_pi thr r n_norm count_i mag model ∈
        claimOffsets model mag ∧
    ((thr ≤ claimCumulCount exp10 np_pi r n_norm count_i mag
          (dm_max_no_perturb_at exp10 np_pi thr r n_norm count_i mag model) model ∧
        ∀ o ∈ claimOffsets model mag,
          o < dm_max_no_perturb_at exp10 np_pi thr r n_norm count_i mag model →
          claimCumulCount exp10 np_pi r n_norm count_i mag o model < thr) ∨
      ((∀ o ∈ claimOffsets model mag,
          claimCumulCount exp10 np_pi r n_norm count_i mag o model < thr) ∧
        ∀ o ∈ claimOffsets model mag,
          o ≤ dm_max_no_perturb_at exp10 np_pi thr r n_norm count_i mag model)) := by
  classical
  set sel := model.filter (fun t => decide (mag ≤ t.1)) with hseldef
  set ys := sel.map (perturber_count_term exp10 np_pi r n_norm count_i) with hysdef
  set lamb := np_cumsum ys with hlambdef
  have hlen1 : ys.length = sel.length := List.length_map _ _
  have hlen2 : lamb.length = sel.length := by rw [hlambdef, np_cumsum_length, hlen1]
  have hselsort : sel.Pairwise (fun a b => a.1 < b.1) := hsort.filter _
  have hoffs : claimOffsets model mag = sel.map (fun t => t.1 - mag) := rfl
  have hoffmem : ∀ o ∈ claimOffsets model mag,
      ∃ j, ∃ hj : j < sel.length, o = (sel.get ⟨j, hj⟩).1 - mag := by
    intro o ho
    rw [hoffs] at ho
    obtain ⟨t, ht, rfl⟩ := List.mem_map.mp ho
    obtain ⟨⟨j, hj⟩, rfl⟩ := List.mem_iff_get.mp ht
    exact ⟨j, hj, rfl⟩
  have hcumul : ∀ j, ∀ hj : j < sel.length,
      claimCumulCount exp10 np_pi r n_norm count_i mag
        ((sel.get ⟨j, hj⟩).1 - mag) model = (ys.take (j + 1)).sum := by
    intro j hj
    have hk : sel[j]? = some (sel.get ⟨j, hj⟩) := by
      rw [List.getElem?_eq_getElem hj]; rfl
    rw [cumul_at_index exp10 np_pi r n_norm count_i mag model hsort j _ hk]
  have hlambj : ∀ j, ∀ hj : j < sel.length, lamb[j]? = some ((ys.take (j + 1)).sum) := by
    intro j hj
    exact np_cumsum_getElem ys j (by omega)
  have hdm : dm_max_no_perturb_at exp10 np_pi thr r n_norm count_i mag model =
      match np_where_first (fun l => decide (thr ≤ l)) lamb with
      | some q0 => (sel.map (fun t => t.1)).getD q0 0 - mag
      | none => (sel.map (fun t => t.1)).getLastD 0 - mag := rfl
  rcases hw : np_where_first (fun l => decide (thr ≤ l)) lamb with _ | q0
  · -- no index reaches the threshold: fall back to the deepest offset
    rw [hw] at hdm
    have hdm2 : dm_max_no_perturb_at exp10 np_pi thr r n_norm count_i mag model =
        (sel.map (fun t => t.1)).getLastD 0 - mag := hdm
    have hnone := np_where_first_eq_none _ _ hw
    have hallcum : ∀ o ∈ claimOffsets model mag,
        claimCumulCount exp10 np_pi r n_norm count_i mag o model < thr := by
      intro o ho
      obtain ⟨j, hj, rfl⟩ := hoffmem o ho
      rw [hcumul j hj]
      have hmem : ((ys.take (j + 1)).sum) ∈ lamb := List.getElem?_mem (hlambj j hj)
      have := hnone _ hmem
      simp only [decide_eq_false_iff_not, not_le] at this
      exact this
    have hselne : sel ≠ [] := hne
    have hn : 0 < sel.length := List.length_pos.mpr hselne
    have hlast : (sel.map (fun t => t.1)).getLastD 0 =
        (sel.get ⟨sel.length - 1, by omega⟩).1 := by
      rw [List.getLastD_eq_getLast?, List.getLast?_eq_getElem?]
      rw [List.getElem?_map, List.length_map]
      rw [List.getElem?_eq_getElem (by omega : sel.length - 1 < sel.length)]
      rfl
    rw [hlast] at hdm2
    rw [hdm2]
    refine ⟨?_, Or.inr ⟨hallcum, ?_⟩⟩
    · rw [hoffs]
      exact List.mem_map.mpr ⟨_, List.get_mem sel _ _, rfl⟩
    · intro o ho
      obtain ⟨j, hj, rfl⟩ := hoffmem o ho
      have := sorted_fst_le sel hselsort j (sel.length - 1) (by omega) (by omega)
      simpa using this
  · -- the first index reaching the threshold gives the smallest offset
    rw [hw] at hdm
    have hdm2 : dm_max_no_perturb_at exp10 np_pi thr r n_norm count_i mag model =
        (sel.map (fun t => t.1)).getD q0 0 - mag := hdm
    obtain ⟨⟨v, hv, hpv⟩, hbefore⟩ := np_where_first_eq_some _ _ _ hw
    have hq0 : q0 < lamb.length := by
      by_contra hcon
      rw [List.getElem?_eq_none (by omega)] at hv
      cases hv
    have hq0' : q0 < sel.length := by omega
    have hx : (sel.map (fun t => t.1)).getD q0 0 = (sel.get ⟨q0, hq0'⟩).1 := by
      rw [List.getD_eq_getElem?_getD, List.getElem?_map,
        List.getElem?_eq_getElem hq0']
      rfl
    have hveq : (ys.take (q0 + 1)).sum = v := by
      have h2 := hlambj q0 hq0'
      rw [hv] at h2
      injection h2 with h3
      exact h3.symm
    rw [hx] at hdm2
    rw [hdm2]
    refine ⟨?_, Or.inl ⟨?_, ?_⟩⟩
    · rw [hoffs]
      exact List.mem_map.mpr ⟨_, List.get_mem sel _ _, rfl⟩
    · rw [hcumul q0 hq0', hveq]
      simpa using hpv
    · intro o ho holt
      obtain ⟨j, hj, rfl⟩ := hoffmem o ho
      have hjlt : j < q0 := by
        by_contra hcon
        have hle : q0 ≤ j := by omega
        have hmono := sorted_fst_le sel hselsort q0 j hle hj
        have : (sel.get ⟨j, hj⟩).1 - mag ≥ (sel.get ⟨q0, hq0'⟩).1 - mag := by
          simp only [ge_iff_le, sub_le_sub_iff_right]
          exact hmono
        linarith
      rw [hcumul j hj]
      have := hbefore j ((ys.take (j + 1)).sum) hjlt (hlambj j hj)
      simp only [decide_eq_false_iff_not, not_le] at this
      exact this

end Macauff

namespace Macauff

/-- C4: for every (magnitude, density) combination `i`, the
minimum simulated-perturber depth returned by
`_calculate_magnitude_offsets` is the larger of (a) the SNR-based
offset `dm_snr = -2.5 * log10(b / snr[i])`, and (b) a no-perturber
depth that is the smallest candidate offset at which the cumulative
expected perturber count reaches `-ln(0.01)` (so the Poisson
probability of zero perturbers drops to at most 1%), falling back to
the deepest simulated offset when the threshold is unreachable.
Hypotheses: the model magnitude bins are strictly increasing and at
least one bin is at least as faint as source `i`. -/
theorem calculate_magnitude_offsets_claim (np_log10 exp10 np_log : ℚ → ℚ)
    (np_pi : ℚ)
    (count_array mag_array : List ℚ) (b : ℚ)
    (snr model_mag_mids log10y model_mags_interval : List ℚ)
    (r n_norm : ℚ) (i : ℕ) (hi : i < mag_array.length)
    (hsort : (model_mag_mids.zip (log10y.zip model_mags_interval)).Pairwise
      (fun a b => a.1 < b.1))
    (hne : (model_mag_mids.zip (log10y.zip model_mags_interval)).filter
      (fun t => decide (mag_array.getD i 0 ≤ t.1)) ≠ []) :
    ∃ dm_no_perturb,
      (_calculate_magnitude_offsets np_log10 exp10 np_log np_pi count_array mag_array
          b snr model_mag_mids log10y model_mags_interval r n_norm)[i]? =
        some (max (-(5 / 2) * np_log10 (b / snr.getD i 0)) dm_no_perturb) ∧
      dm_no_perturb ∈ claimOffsets
        (model_mag_mids.zip (log10y.zip model_mags_interval)) (mag_array.getD i 0) ∧
      ((-np_log (1 / 100) ≤ claimCumulCount exp10 np_pi r n_norm
            (count_array.getD i 0) (mag_array.getD i 0) dm_no_perturb
            (model_mag_mids.zip (log10y.zip model_mags_interval)) ∧
          ∀ o ∈ claimOffsets (model_mag_mids.zip (log10y.zip model_mags_interval))
              (mag_array.getD i 0), o < dm_no_perturb →
            claimCumulCount exp10 np_pi r n_norm (count_array.getD i 0)
                (mag_array.getD i 0) o
                (model_mag_mids.zip (log10y.zip model_mags_interval)) <
              -np_log (1 / 100)) ∨
        ((∀ o ∈ claimOffsets (model_mag_mids.zip (log10y.zip model_mags_interval))
              (mag_array.getD i 0),
            claimCumulCount exp10 np_pi r n_norm (count_array.getD i 0)
                (mag_array.getD i 0) o
                (model_mag_mids.zip (log10y.zip model_mags_interval)) <
              -np_log (1 / 100)) ∧
          ∀ o ∈ claimOffsets (model_mag_mids.zip (log10y.zip model_mags_interval))
              (mag_array.getD i 0), o ≤ dm_no_perturb)) := by
  obtain ⟨hmem, hrest⟩ := dm_max_no_perturb_at_spec exp10 np_pi (-np_log (1 / 100)) r
    n_norm (count_array.getD i 0) (mag_array.getD i 0)
    (model_mag_mids.zip (log10y.zip model_mags_interval)) hsort hne
  refine ⟨dm_max_no_perturb_at exp10 np_pi (-np_log (1 / 100)) r n_norm
    (count_array.getD i 0) (mag_array.getD i 0)
    (model_mag_mids.zip (log10y.zip model_mags_interval)), ?_, hmem, hrest⟩
  simp only [_calculate_magnitude_offsets, List.getElem?_map, List.getElem?_range, hi,
    if_pos, Option.map_some']

/-- C4 witness: a single source of magnitude 0 with one model bin at
magnitude 1; with `10**x` instantiated as the constant-1 function and
threshold 3 the cumulative count reaches the threshold at the first
bin. -/
theorem calculate_magnitude_offsets_claim_witness :
    ∃ dm_no_perturb,
      (_calculate_magnitude_offsets (fun _ => 0) (fun _ => 1) (fun _ => -3) 3 [1] [0]
          1 [1] [1] [0] [1] 3600 1)[0]? =
        some (max (-(5 / 2) * (0 : ℚ)) dm_no_perturb) ∧
      dm_no_perturb ∈ claimOffsets [(1, 0, 1)] 0 := by
  obtain ⟨d, h1, h2, _⟩ := calculate_magnitude_offsets_claim
    (fun _ => 0) (fun _ => 1) (fun _ => -3) 3 [1] [0] 1 [1] [1] [0] [1] 3600 1 0
    (by simp) (by simp) (by norm_num [List.filter])
  exact ⟨d, by simpa using h1, by simpa using h2⟩

end Macauff

namespace Macauff

/-! ## perturbation_auf.calculate_local_density (lines 640-727)

The geometry primitives that live outside the available sources are
modelled from the spec on a flat sky: `misc_functions.min_max_lon` and
`misc_functions._load_rectangular_slice` (rectangular padded-slice
membership), and the Fortran `paf.get_density` (radius query) and
`paf.get_circle_area_overlap`.  The circle-rectangle overlap area is
kept fully abstract as a function parameter, since the claim only
constrains what is divided by it. -/

/-- A sky position (axis1/axis2, i.e. the two astrometry columns). -/
structure Pt where
  lon : ℚ
  lat : ℚ
  deriving DecidableEq, Repr

/-- Squared flat-sky separation of two positions. -/
def dist2 (p q : Pt) : ℚ := (p.lon - q.lon) ^ 2 + (p.lat - q.lat) ^ 2

/-- `np.amin` over a 1-D array (0 on the empty array, on which numpy
would raise). -/
def np_amin (l : List ℚ) : ℚ :=
  match l with
  | [] => 0
  | x :: xs => xs.foldl min x

/-- `np.amax` over a 1-D array (0 on the empty array, on which numpy
would raise). -/
def np_amax (l : List ℚ) : ℚ :=
  match l with
  | [] => 0
  | x :: xs => xs.foldl max x

/-- Modelled from the spec: `misc_functions.min_max_lon` (not under the
available sources) — the extremal longitudes of a coordinate list (the
real function additionally handles ±180° wraparound, outside this flat
model). -/
def min_max_lon (ls : List ℚ) : ℚ × ℚ := (np_amin ls, np_amax ls)

/-- Modelled from the spec: `misc_functions._load_rectangular_slice`
(not under the available sources) — membership of a source in the
rectangle `[lo1, hi1] × [lo2, hi2]` expanded by `pad` degrees on every
side. -/
def in_rect_slice (p : Pt) (lo1 hi1 lo2 hi2 pad : ℚ) : Bool :=
  decide (lo1 - pad ≤ p.lon) && decide (p.lon ≤ hi1 + pad) &&
  decide (lo2 - pad ≤ p.lat) && decide (p.lat ≤ hi2 + pad)

/-- Modelled from the spec: the Fortran `paf.get_density` — for each
queried source, the number of candidate (bright) sources within
`density_radius` (flat-sky radius query). -/
def get_density (pts bright : List Pt) (density_radius : ℚ) : List ℕ :=
  pts.map (fun s => bright.countP (fun x => decide (dist2 x s ≤ density_radius ^ 2)))

/-- `np.linspace(a, b, n)`: `n` evenly spaced points from `a` to `b`
inclusive (for `n = 1` numpy returns `[a]`, matched here since the
rational `0 / 0 = 0`). -/
def np_linspace (a b : ℚ) (n : ℕ) : List ℚ :=
  (List.range n).map (fun i : ℕ => a + (b - a) * (i : ℚ) / ((n : ℚ) - 1))

/-- perturbation_auf.py lines 678-687 (for one axis): 11 chunk
boundaries, or roughly degree-sized chunks when those would be smaller
than a degree: `int(np.ceil(hi - lo) + 1)` boundaries. -/
def ax_loops (lo hi : ℚ) : List ℚ :=
  let l := np_linspace lo hi 11
  if l.getD 1 0 - l.getD 0 0 < 1 then
    np_linspace lo hi (⌈hi - lo⌉.toNat + 1)
  else l

/-- Numpy boolean-mask assignment `fc[mask] = vals`: walk the array and
the mask together, replacing each masked entry with the next value. -/
def scatter_mask (fc : List ℚ) (mask : List Bool) (vals : List ℚ) : List ℚ :=
  match fc, mask with
  | [], _ => []
  | v :: fcs, [] => v :: fcs
  | v :: fcs, b :: bs =>
    if b then
      match vals with
      | [] => v :: scatter_mask fcs bs []
      | w :: ws => w :: scatter_mask fcs bs ws
    else v :: scatter_mask fcs bs vals

/-- perturbation_auf.py lines 689-716, the body of the chunk double
loop: select the chunk's sources (`small_sky_cut`, padding 0) — skipping
the chunk if it has none — re-select the bright overlap sources within
the chunk padded by `density_radius` (lines 696-698), and scatter into
`full_counts` either the radius-query counts with zeros clamped to 1
(lines 701-710) or the constant 1 when the chunk has no bright sources
around it (lines 711-716). -/
def chunk_step (a_astro : List Pt) (a_overlap : List (Pt × ℚ))
    (density_radius density_mag : ℚ) (fc : List ℚ)
    (ch : (ℚ × ℚ) × (ℚ × ℚ)) : List ℚ :=
  let small_cut : Pt → Bool := fun p => in_rect_slice p ch.1.1 ch.1.2 ch.2.1 ch.2.2 0
  let a_astro_small := a_astro.filter small_cut
  if a_astro_small.length = 0 then fc
  else
    let a_overlap_small := a_overlap.filter (fun pm =>
      in_rect_slice pm.1 ch.1.1 ch.1.2 ch.2.1 ch.2.2 density_radius &&
      decide (pm.2 ≤ density_mag))
    if 0 < a_overlap_small.length then
      let counts := get_density a_astro_small (a_overlap_small.map (fun pm => pm.1))
        density_radius
      -- counts[counts == 0] = 1
      let counts := counts.map (fun c => if c = 0 then 1 else c)
      scatter_mask fc (a_astro.map small_cut) (counts.map (fun c : ℕ => (c : ℚ)))
    else
      scatter_mask fc (a_astro.map small_cut)
        (a_astro_small.map (fun _ => (1 : ℚ)))

/-- perturbation_auf.py lines 673-675: the bright-source overlap pre-cut
over the full catalogue — sources inside the `a_astro` bounding
rectangle padded by `density_radius` and brighter than `density_mag`. -/
def overlap_bright_cut (a_astro a_tot_astro : List Pt) (a_tot_photo : List ℚ)
    (density_radius density_mag : ℚ) : List (Pt × ℚ) :=
  (a_tot_astro.zip a_tot_photo).filter (fun pm =>
    in_rect_slice pm.1 (min_max_lon (a_astro.map Pt.lon)).1
      (min_max_lon (a_astro.map Pt.lon)).2 (np_amin (a_astro.map Pt.lat))
      (np_amax (a_astro.map Pt.lat)) density_radius &&
    decide (pm.2 ≤ density_mag))

/-- perturbation_auf.py lines 717-721: the effective circle-rectangle
overlap area for one source, evaluated — as the code does — at the
coordinate bounds of the bright overlap cut. -/
def overlap_area_for (a_astro a_tot_astro : List Pt) (a_tot_photo : List ℚ)
    (density_radius density_mag : ℚ)
    (area_overlap : Pt → ℚ → ℚ → ℚ → ℚ → ℚ → ℚ) (p : Pt) : ℚ :=
  let a_overlap := overlap_bright_cut a_astro a_tot_astro a_tot_photo
    density_radius density_mag
  area_overlap p density_radius
    (min_max_lon (a_overlap.map (fun pm => pm.1.lon))).1
    (min_max_lon (a_overlap.map (fun pm => pm.1.lon))).2
    (np_amin (a_overlap.map (fun pm => pm.1.lat)))
    (np_amax (a_overlap.map (fun pm => pm.1.lat)))

/-- perturbation_auf.py lines 640-727, `calculate_local_density`: the
bright-source overlap pre-cut (lines 670-676), the chunked radius-count
loop (lines 678-716) over a `full_counts` working array, and the final
normalisation by the circle-rectangle overlap area evaluated at the
bounds of the overlap cut (lines 717-723).  `get_circle_area_overlap`
(Fortran, not under the available sources) is the abstract parameter
`area_overlap p density_radius min_lon max_lon min_lat max_lat`. -/
def calculate_local_density (a_astro a_tot_astro : List Pt) (a_tot_photo : List ℚ)
    (density_radius density_mag : ℚ)
    (area_overlap : Pt → ℚ → ℚ → ℚ → ℚ → ℚ → ℚ) : List ℚ :=
  let mm := min_max_lon (a_astro.map Pt.lon)
  let min_lat := np_amin (a_astro.map Pt.lat)
  let max_lat := np_amax (a_astro.map Pt.lat)
  let a_overlap := overlap_bright_cut a_astro a_tot_astro a_tot_photo
    density_radius density_mag
  let ax1_loops := ax_loops mm.1 mm.2
  let ax2_loops := ax_loops min_lat max_lat
  let chunks := (ax1_loops.zip ax1_loops.tail).flatMap (fun c1 =>
    (ax2_loops.zip ax2_loops.tail).map (fun c2 => (c1, c2)))
  let full_counts := chunks.foldl
    (chunk_step a_astro a_overlap density_radius density_mag)
    (List.replicate a_astro.length 0)
  let areas := a_astro.map (overlap_area_for a_astro a_tot_astro a_tot_photo
    density_radius density_mag area_overlap)
  (full_counts.zip areas).map (fun ca => ca.1 / ca.2)

/-- Stated from the claim's words: for every source, the local density
equals the count of catalogue sources brighter than the
density-defining magnitude within `density_radius`, divided by the
effective overlap area (the same abstract overlap-area primitive the
code normalises by). -/
def claimLocalDensity (a_astro a_tot_astro : List Pt) (a_tot_photo : List ℚ)
    (density_radius density_mag : ℚ)
    (area_overlap : Pt → ℚ → ℚ → ℚ → ℚ → ℚ → ℚ) : List ℚ :=
  a_astro.map (fun p =>
    (((a_tot_astro.zip a_tot_photo).countP (fun pm => decide (pm.2 ≤ density_mag) &&
        decide (dist2 pm.1 p ≤ density_radius ^ 2)) : ℚ)) /
      overlap_area_for a_astro a_tot_astro a_tot_photo density_radius density_mag
        area_overlap p)

end Macauff

namespace Macauff

theorem foldl_min_le (xs : List ℚ) (a : ℚ) :
    xs.foldl min a ≤ a ∧ ∀ x ∈ xs, xs.foldl min a ≤ x := by
  induction xs generalizing a with
  | nil => simp
  | cons y ys ih =>
    obtain ⟨h1, h2⟩ := ih (min a y)
    refine ⟨le_trans h1 (min_le_left a y), ?_⟩
    intro x hx
    rcases List.mem_cons.mp hx with rfl | hx'
    · exact le_trans h1 (min_le_right a x)
    · exact h2 x hx'

theorem le_foldl_max (xs : List ℚ) (a : ℚ) :
    a ≤ xs.foldl max a ∧ ∀ x ∈ xs, x ≤ xs.foldl max a := by
  induction xs generalizing a with
  | nil => simp
  | cons y ys ih =>
    obtain ⟨h1, h2⟩ := ih (max a y)
    refine ⟨le_trans (le_max_left a y) h1, ?_⟩
    intro x hx
    rcases List.mem_cons.mp hx with rfl | hx'
    · exact le_trans (le_max_right a x) h1
    · exact h2 x hx'

theorem np_amin_le {l : List ℚ} {x : ℚ} (hx : x ∈ l) : np_amin l ≤ x := by
  cases l with
  | nil => cases hx
  | cons y ys =>
    rcases List.mem_cons.mp hx with rfl | hx'
    · exact (foldl_min_le ys x).1
    · exact (foldl_min_le ys y).2 x hx'

theorem le_np_amax {l : List ℚ} {x : ℚ} (hx : x ∈ l) : x ≤ np_amax l := by
  cases l with
  | nil => cases hx
  | cons y ys =>
    rcases List.mem_cons.mp hx with rfl | hx'
    · exact (le_foldl_max ys x).1
    · exact (le_foldl_max ys y).2 x hx'

theorem np_linspace_length (a b : ℚ) (n : ℕ) : (np_linspace a b n).length = n := by
  rw [np_linspace, List.length_map, List.length_range]

theorem np_linspace_getElem (a b : ℚ) (n i : ℕ) (hi : i < n) :
    (np_linspace a b n)[i]? = some (a + (b - a) * i / (n - 1)) := by
  simp only [np_linspace, List.getElem?_map, List.getElem?_range, hi, if_pos,
    Option.map_some']

theorem np_linspace_chain (a b : ℚ) (n : ℕ) (hab : a ≤ b) :
    (np_linspace a b n).Chain' (· ≤ ·) := by
  rw [List.chain'_iff_get]
  intro i hi
  rw [np_linspace_length] at hi
  have hi1 : i < n := by omega
  have hi2 : i + 1 < n := by omega
  have hg1 : (np_linspace a b n).get ⟨i, by rw [np_linspace_length]; omega⟩ =
      a + (b - a) * (i : ℚ) / ((n : ℚ) - 1) := by
    have h' := np_linspace_getElem a b n i hi1
    rw [List.getElem?_eq_getElem (by rw [np_linspace_length]; omega)] at h'
    rw [List.get_eq_getElem]
    exact Option.some.inj h'
  have hg2 : (np_linspace a b n).get ⟨i + 1, by rw [np_linspace_length]; omega⟩ =
      a + (b - a) * ((i : ℚ) + 1) / ((n : ℚ) - 1) := by
    have h' := np_linspace_getElem a b n (i + 1) hi2
    rw [List.getElem?_eq_getElem (by rw [np_linspace_length]; omega)] at h'
    rw [List.get_eq_getElem]
    rw [Option.some.inj h']
    push_cast
    ring
  rw [hg1, hg2]
  have hd : (0 : ℚ) < (n : ℚ) - 1 := by
    have : (2 : ℚ) ≤ (n : ℚ) := by exact_mod_cast (by omega : 2 ≤ n)
    linarith
  rw [div_eq_mul_inv, div_eq_mul_inv]
  have hinv : (0 : ℚ) < ((n : ℚ) - 1)⁻¹ := inv_pos.mpr hd
  nlinarith

theorem np_linspace_head (a b : ℚ) (n : ℕ) (hn : 0 < n) :
    (np_linspace a b n)[0]? = some a := by
  rw [np_linspace_getElem a b n 0 hn]
  norm_num

theorem np_linspace_last (a b : ℚ) (n : ℕ) (hn : 2 ≤ n) :
    (np_linspace a b n)[n - 1]? = some b := by
  rw [np_linspace_getElem a b n (n - 1) (by omega)]
  have hd : ((n : ℚ) - 1) ≠ 0 := by
    have : (2 : ℚ) ≤ (n : ℚ) := by exact_mod_cast hn
    linarith
  have hcast : ((n - 1 : ℕ) : ℚ) = (n : ℚ) - 1 := by
    push_cast [Nat.cast_sub (by omega : 1 ≤ n)]
    ring
  rw [hcast, mul_div_assoc, div_self hd]
  norm_num

theorem ax_loops_spec (lo hi : ℚ) (h : lo < hi) :
    ∃ n, 2 ≤ n ∧ ax_loops lo hi = np_linspace lo hi n := by
  rw [ax_loops]
  split
  · refine ⟨⌈hi - lo⌉.toNat + 1, ?_, rfl⟩
    have h1 : (0 : ℚ) < hi - lo := by linarith
    have h2 : (1 : ℤ) ≤ ⌈hi - lo⌉ := by
      rw [Int.le_ceil_iff]
      push_cast
      linarith
    omega
  · exact ⟨11, by omega, rfl⟩

theorem bracket_of_chain (l : List ℚ) (v : ℚ) (hlen : 2 ≤ l.length)
    (hchain : l.Chain' (· ≤ ·))
    (hhead : ∀ x, l[0]? = some x → x ≤ v)
    (hlast : ∀ x, l[l.length - 1]? = some x → v ≤ x) :
    ∃ pr ∈ l.zip l.tail, pr.1 ≤ v ∧ v ≤ pr.2 := by
  induction l with
  | nil => simp at hlen
  | cons x t ih =>
    cases t with
    | nil => simp at hlen
    | cons y rest =>
      have hx : x ≤ v := hhead x (by simp)
      by_cases hvy : v ≤ y
      · exact ⟨(x, y), by simp [List.zip], hx, hvy⟩
      · push_neg at hvy
        cases rest with
        | nil =>
          exfalso
          have := hlast y (by simp)
          linarith
        | cons r rs =>
          obtain ⟨pr, hpr, h1, h2⟩ := ih (by simp only [List.length_cons]; omega)
            hchain.tail
            (fun w hw => by
              simp only [List.getElem?_cons_zero] at hw
              cases hw
              linarith)
            (fun w hw => by
              have h2 : (y :: r :: rs).length - 1 = rs.length + 1 := by
                simp only [List.length_cons]; omega
              rw [h2] at hw
              apply hlast w
              have h3 : (x :: y :: r :: rs).length - 1 = rs.length + 1 + 1 := by
                simp only [List.length_cons]; omega
              rw [h3, List.getElem?_cons_succ]
              exact hw)
          exact ⟨pr, by
            simp only [List.tail_cons, List.zip_cons_cons, List.mem_cons]
            right
            simpa using hpr, h1, h2⟩

theorem chunks_cover (lo hi : ℚ) (h : lo < hi) (v : ℚ) (hv1 : lo ≤ v) (hv2 : v ≤ hi) :
    ∃ pr ∈ (ax_loops lo hi).zip (ax_loops lo hi).tail, pr.1 ≤ v ∧ v ≤ pr.2 := by
  obtain ⟨n, hn, heq⟩ := ax_loops_spec lo hi h
  rw [heq]
  apply bracket_of_chain
  · rw [np_linspace_length]; omega
  · exact np_linspace_chain lo hi n (le_of_lt h)
  · intro x hx
    rw [np_linspace_head lo hi n (by omega)] at hx
    cases hx
    exact hv1
  · intro x hx
    rw [np_linspace_length, np_linspace_last lo hi n hn] at hx
    cases hx
    exact hv2

theorem near_mem_padded (p x : Pt) (lo1 hi1 lo2 hi2 rad : ℚ) (hrad : 0 ≤ rad)
    (hp : in_rect_slice p lo1 hi1 lo2 hi2 0 = true)
    (hx : dist2 x p ≤ rad ^ 2) : in_rect_slice x lo1 hi1 lo2 hi2 rad = true := by
  simp only [in_rect_slice, Bool.and_eq_true, decide_eq_true_eq] at hp ⊢
  obtain ⟨⟨⟨a1, a2⟩, a3⟩, a4⟩ := hp
  rw [dist2] at hx
  have s1 : (x.lat - p.lat) ^ 2 ≥ 0 := sq_nonneg _
  have s2 : (x.lon - p.lon) ^ 2 ≥ 0 := sq_nonneg _
  have h1 : (x.lon - p.lon) ^ 2 ≤ rad ^ 2 := by linarith
  have h2 : (x.lat - p.lat) ^ 2 ≤ rad ^ 2 := by linarith
  refine ⟨⟨⟨?_, ?_⟩, ?_⟩, ?_⟩ <;> nlinarith

theorem scatter_mask_getElem (pts : List Pt) (f : Pt → ℚ) (mf : Pt → Bool) :
    ∀ (fc : List ℚ) (i : ℕ), fc.length = pts.length →
    (scatter_mask fc (pts.map mf) ((pts.filter mf).map f))[i]? =
      match pts[i]?, fc[i]? with
      | some p, some v => some (if mf p then f p else v)
      | _, _ => none := by
  induction pts with
  | nil =>
    intro fc i hlen
    rw [List.length_nil, List.length_eq_zero] at hlen
    subst hlen
    simp [scatter_mask]
  | cons p ps ih =>
    intro fc i hlen
    cases fc with
    | nil => simp at hlen
    | cons v vs =>
      rw [List.length_cons, List.length_cons] at hlen
      rw [List.map_cons, List.filter_cons]
      by_cases hmf : mf p
      · rw [if_pos hmf]
        cases i with
        | zero => simp [scatter_mask, hmf]
        | succ i =>
          simp only [List.map_cons, scatter_mask, hmf, if_pos]
          rw [List.getElem?_cons_succ, List.getElem?_cons_succ, List.getElem?_cons_succ]
          exact ih vs i (by omega)
      · rw [if_neg hmf]
        cases i with
        | zero => simp [scatter_mask, hmf]
        | succ i =>
          simp only [scatter_mask, hmf, if_neg, Bool.false_eq_true, not_false_iff]
          rw [List.getElem?_cons_succ, List.getElem?_cons_succ, List.getElem?_cons_succ]
          exact ih vs i (by omega)

theorem scatter_mask_getElem_applied (pts : List Pt) (f : Pt → ℚ) (mf : Pt → Bool)
    (fc : List ℚ) (i : ℕ) (hlen : fc.length = pts.length) (p : Pt) (v : ℚ)
    (hp : pts[i]? = some p) (hv : fc[i]? = some v) :
    (scatter_mask fc (pts.map mf) ((pts.filter mf).map f))[i]? =
      some (if mf p then f p else v) := by
  have h := scatter_mask_getElem pts f mf fc i hlen
  rw [hp, hv] at h
  exact h

theorem scatter_mask_length (fc : List ℚ) (mask : List Bool) (vals : List ℚ) :
    (scatter_mask fc mask vals).length = fc.length := by
  induction fc generalizing mask vals with
  | nil => simp [scatter_mask]
  | cons v fcs ih =>
    cases mask with
    | nil => simp [scatter_mask]
    | cons b bs =>
      rw [scatter_mask.eq_def]
      by_cases hb : b
      · subst hb
        cases vals with
        | nil => simp [ih]
        | cons w ws => simp [ih]
      · simp only [Bool.not_eq_true] at hb
        subst hb
        simp [ih]

theorem chunk_count_eq (a_tot : List (Pt × ℚ)) (rad mag : ℚ) (p : Pt)
    (rlo1 rhi1 rlo2 rhi2 c1s c1e c2s c2e : ℚ) (hrad : 0 ≤ rad)
    (hp_reg : in_rect_slice p rlo1 rhi1 rlo2 rhi2 0 = true)
    (hp_ch : in_rect_slice p c1s c1e c2s c2e 0 = true) :
    (((a_tot.filter (fun pm => in_rect_slice pm.1 rlo1 rhi1 rlo2 rhi2 rad &&
        decide (pm.2 ≤ mag))).filter (fun pm =>
        in_rect_slice pm.1 c1s c1e c2s c2e rad && decide (pm.2 ≤ mag))).map
      (fun pm => pm.1)).countP (fun x => decide (dist2 x p ≤ rad ^ 2)) =
    a_tot.countP (fun pm => decide (pm.2 ≤ mag) &&
      decide (dist2 pm.1 p ≤ rad ^ 2)) := by
  rw [List.countP_map, List.countP_filter, List.countP_filter]
  apply List.countP_congr
  intro pm _
  simp only [Function.comp_apply, Bool.and_eq_true, decide_eq_true_eq]
  constructor
  · rintro ⟨⟨hnear, _, hmag⟩, _⟩
    exact ⟨hmag, hnear⟩
  · rintro ⟨hmag, hnear⟩
    exact ⟨⟨hnear, near_mem_padded p pm.1 c1s c1e c2s c2e rad hrad hp_ch hnear, hmag⟩,
      near_mem_padded p pm.1 rlo1 rhi1 rlo2 rhi2 rad hrad hp_reg hnear, hmag⟩

theorem chunk_step_length (a_astro : List Pt) (ovl : List (Pt × ℚ)) (rad mag : ℚ)
    (fc : List ℚ) (ch : (ℚ × ℚ) × (ℚ × ℚ)) :
    (chunk_step a_astro ovl rad mag fc ch).length = fc.length := by
  simp only [chunk_step]
  split
  · rfl
  · split
    · exact scatter_mask_length _ _ _
    · exact scatter_mask_length _ _ _

theorem chunk_step_getElem (a_astro a_tot_astro : List Pt) (a_tot_photo : List ℚ)
    (rad mag : ℚ) (rlo1 rhi1 rlo2 rhi2 : ℚ) (ch : (ℚ × ℚ) × (ℚ × ℚ))
    (fc : List ℚ) (hlen : fc.length = a_astro.length) (hrad : 0 ≤ rad)
    (i : ℕ) (p : Pt) (hp : a_astro[i]? = some p)
    (hp_reg : in_rect_slice p rlo1 rhi1 rlo2 rhi2 0 = true) :
    (chunk_step a_astro ((a_tot_astro.zip a_tot_photo).filter (fun pm =>
        in_rect_slice pm.1 rlo1 rhi1 rlo2 rhi2 rad && decide (pm.2 ≤ mag)))
      rad mag fc ch)[i]? =
      if in_rect_slice p ch.1.1 ch.1.2 ch.2.1 ch.2.2 0 = true then
        some (((max ((a_tot_astro.zip a_tot_photo).countP
          (fun pm => decide (pm.2 ≤ mag) && decide (dist2 pm.1 p ≤ rad ^ 2))) 1 : ℕ)) : ℚ)
      else fc[i]? := by
  have hpmem : p ∈ a_astro := List.getElem?_mem hp
  have hilt : i < a_astro.length := by
    by_contra hcon
    rw [List.getElem?_eq_none (by omega)] at hp
    cases hp
  have hv : fc[i]? = some (fc.get ⟨i, by omega⟩) := by
    rw [List.getElem?_eq_getElem (by omega)]
    rfl
  simp only [chunk_step]
  split
  · -- lines 693-694: the chunk holds no sources, so p cannot be in it
    rename_i hempty
    have hpnot : ¬in_rect_slice p ch.1.1 ch.1.2 ch.2.1 ch.2.2 0 = true := by
      intro hcon
      have hmem2 : p ∈ a_astro.filter (fun q =>
          in_rect_slice q ch.1.1 ch.1.2 ch.2.1 ch.2.2 0) :=
        List.mem_filter.mpr ⟨hpmem, hcon⟩
      rw [List.length_eq_zero] at hempty
      rw [hempty] at hmem2
      cases hmem2
    rw [if_neg hpnot]
  · split
    · -- lines 701-710: radius counts with zeros clamped to 1
      rename_i hnotempty hpos
      simp only [get_density, List.map_map]
      rw [scatter_mask_getElem_applied _ _ _ fc i (by omega) p _ hp hv]
      by_cases hin : in_rect_slice p ch.1.1 ch.1.2 ch.2.1 ch.2.2 0 = true
      · rw [if_pos hin, if_pos hin]
        have hcnt := chunk_count_eq (a_tot_astro.zip a_tot_photo) rad mag p
          rlo1 rhi1 rlo2 rhi2 ch.1.1 ch.1.2 ch.2.1 ch.2.2 hrad hp_reg hin
        simp only [Function.comp_apply]
        rw [hcnt]
        congr 1
        rcases Nat.eq_zero_or_pos ((a_tot_astro.zip a_tot_photo).countP
            (fun pm => decide (pm.2 ≤ mag) && decide (dist2 pm.1 p ≤ rad ^ 2))) with h0 | h0
        · rw [h0]; norm_num
        · rw [if_neg (by omega)]
          congr 1
          omega
      · rw [if_neg hin, if_neg hin, hv]
    · -- lines 711-716: no bright sources around the chunk at all
      rename_i hnotempty hnpos
      rw [scatter_mask_getElem_applied _ _ _ fc i (by omega) p _ hp hv]
      by_cases hin : in_rect_slice p ch.1.1 ch.1.2 ch.2.1 ch.2.2 0 = true
      · rw [if_pos hin, if_pos hin]
        have hcnt := chunk_count_eq (a_tot_astro.zip a_tot_photo) rad mag p
          rlo1 rhi1 rlo2 rhi2 ch.1.1 ch.1.2 ch.2.1 ch.2.2 hrad hp_reg hin
        have hz : ((a_tot_astro.zip a_tot_photo).filter (fun pm =>
            in_rect_slice pm.1 rlo1 rhi1 rlo2 rhi2 rad && decide (pm.2 ≤ mag))).filter
            (fun pm => in_rect_slice pm.1 ch.1.1 ch.1.2 ch.2.1 ch.2.2 rad &&
              decide (pm.2 ≤ mag)) = [] := by
          rw [← List.length_eq_zero]
          omega
        rw [hz] at hcnt
        simp only [List.map_nil, List.countP_nil] at hcnt
        rw [← hcnt]
        norm_num
      · rw [if_neg hin, if_neg hin, hv]

theorem foldl_chunk_getElem (a_astro a_tot_astro : List Pt) (a_tot_photo : List ℚ)
    (rad mag rlo1 rhi1 rlo2 rhi2 : ℚ)
    (chunks : List ((ℚ × ℚ) × (ℚ × ℚ))) (fc : List ℚ)
    (hlen : fc.length = a_astro.length) (hrad : 0 ≤ rad)
    (i : ℕ) (p : Pt) (hp : a_astro[i]? = some p)
    (hp_reg : in_rect_slice p rlo1 rhi1 rlo2 rhi2 0 = true) :
    (chunks.foldl (chunk_step a_astro ((a_tot_astro.zip a_tot_photo).filter (fun pm =>
        in_rect_slice pm.1 rlo1 rhi1 rlo2 rhi2 rad && decide (pm.2 ≤ mag))) rad mag)
      fc)[i]? =
      if ∃ ch ∈ chunks, in_rect_slice p ch.1.1 ch.1.2 ch.2.1 ch.2.2 0 = true then
        some (((max ((a_tot_astro.zip a_tot_photo).countP
          (fun pm => decide (pm.2 ≤ mag) && decide (dist2 pm.1 p ≤ rad ^ 2))) 1 : ℕ)) : ℚ)
      else fc[i]? := by
  induction chunks generalizing fc with
  | nil => simp
  | cons ch chs ih =>
    rw [List.foldl_cons]
    rw [ih _ (by rw [chunk_step_length]; exact hlen)]
    by_cases hchs : ∃ c ∈ chs, in_rect_slice p c.1.1 c.1.2 c.2.1 c.2.2 0 = true
    · rw [if_pos hchs, if_pos ?_]
      obtain ⟨c, hc, hcin⟩ := hchs
      exact ⟨c, List.mem_cons_of_mem ch hc, hcin⟩
    · rw [if_neg hchs]
      rw [chunk_step_getElem a_astro a_tot_astro a_tot_photo rad mag rlo1 rhi1 rlo2
        rhi2 ch fc hlen hrad i p hp hp_reg]
      by_cases hch : in_rect_slice p ch.1.1 ch.1.2 ch.2.1 ch.2.2 0 = true
      · rw [if_pos hch, if_pos ⟨ch, List.mem_cons_self ch chs, hch⟩]
      · rw [if_neg hch, if_neg ?_]
        rintro ⟨c, hc, hcin⟩
        rcases List.mem_cons.mp hc with rfl | hc'
        · exact hch hcin
        · exact hchs ⟨c, hc', hcin⟩

theorem zip_map_div_getElem (l1 l2 : List ℚ) (i : ℕ) (a b : ℚ)
    (h1 : l1[i]? = some a) (h2 : l2[i]? = some b) :
    ((l1.zip l2).map (fun ca => ca.1 / ca.2))[i]? = some (a / b) := by
  induction l1 generalizing l2 i with
  | nil => simp at h1
  | cons x xs ih =>
    cases l2 with
    | nil => simp at h2
    | cons y ys =>
      cases i with
      | zero =>
        simp only [List.getElem?_cons_zero] at h1 h2
        cases h1; cases h2
        simp
      | succ i =>
        simp only [List.getElem?_cons_succ] at h1 h2
        simpa using ih ys i h1 h2

theorem calculate_local_density_getElem
    (a_astro a_tot_astro : List Pt) (a_tot_photo : List ℚ) (rad mag : ℚ)
    (area_overlap : Pt → ℚ → ℚ → ℚ → ℚ → ℚ → ℚ) (hrad : 0 ≤ rad)
    (hlon : np_amin (a_astro.map Pt.lon) < np_amax (a_astro.map Pt.lon))
    (hlat : np_amin (a_astro.map Pt.lat) < np_amax (a_astro.map Pt.lat))
    (i : ℕ) (p : Pt) (hp : a_astro[i]? = some p) :
    (calculate_local_density a_astro a_tot_astro a_tot_photo rad mag area_overlap)[i]? =
      some ((((max ((a_tot_astro.zip a_tot_photo).countP
          (fun pm => decide (pm.2 ≤ mag) && decide (dist2 pm.1 p ≤ rad ^ 2))) 1 : ℕ)) : ℚ) /
        overlap_area_for a_astro a_tot_astro a_tot_photo rad mag area_overlap p) := by
  have hpmem : p ∈ a_astro := List.getElem?_mem hp
  have hlonmem : p.lon ∈ a_astro.map Pt.lon := List.mem_map.mpr ⟨p, hpmem, rfl⟩
  have hlatmem : p.lat ∈ a_astro.map Pt.lat := List.mem_map.mpr ⟨p, hpmem, rfl⟩
  have hp_reg : in_rect_slice p (np_amin (a_astro.map Pt.lon))
      (np_amax (a_astro.map Pt.lon)) (np_amin (a_astro.map Pt.lat))
      (np_amax (a_astro.map Pt.lat)) 0 = true := by
    simp only [in_rect_slice, Bool.and_eq_true, decide_eq_true_eq, sub_zero, add_zero]
    exact ⟨⟨⟨np_amin_le hlonmem, le_np_amax hlonmem⟩, np_amin_le hlatmem⟩,
      le_np_amax hlatmem⟩
  -- the chunk grid covers every source
  obtain ⟨pr1, hpr1, hpr1a, hpr1b⟩ := chunks_cover _ _ hlon p.lon
    (np_amin_le hlonmem) (le_np_amax hlonmem)
  obtain ⟨pr2, hpr2, hpr2a, hpr2b⟩ := chunks_cover _ _ hlat p.lat
    (np_amin_le hlatmem) (le_np_amax hlatmem)
  have hcover : ∃ ch ∈ (((ax_loops (np_amin (a_astro.map Pt.lon))
        (np_amax (a_astro.map Pt.lon))).zip
        (ax_loops (np_amin (a_astro.map Pt.lon))
          (np_amax (a_astro.map Pt.lon))).tail).flatMap (fun c1 =>
        ((ax_loops (np_amin (a_astro.map Pt.lat))
          (np_amax (a_astro.map Pt.lat))).zip
          (ax_loops (np_amin (a_astro.map Pt.lat))
            (np_amax (a_astro.map Pt.lat))).tail).map (fun c2 => (c1, c2)))),
      in_rect_slice p ch.1.1 ch.1.2 ch.2.1 ch.2.2 0 = true := by
    refine ⟨(pr1, pr2), ?_, ?_⟩
    · rw [List.mem_flatMap]
      exact ⟨pr1, hpr1, List.mem_map.mpr ⟨pr2, hpr2, rfl⟩⟩
    · simp only [in_rect_slice, Bool.and_eq_true, decide_eq_true_eq, sub_zero, add_zero]
      exact ⟨⟨⟨hpr1a, hpr1b⟩, hpr2a⟩, hpr2b⟩
  have hfull := foldl_chunk_getElem a_astro a_tot_astro a_tot_photo rad mag
    (np_amin (a_astro.map Pt.lon)) (np_amax (a_astro.map Pt.lon))
    (np_amin (a_astro.map Pt.lat)) (np_amax (a_astro.map Pt.lat))
    (((ax_loops (np_amin (a_astro.map Pt.lon)) (np_amax (a_astro.map Pt.lon))).zip
      (ax_loops (np_amin (a_astro.map Pt.lon))
        (np_amax (a_astro.map Pt.lon))).tail).flatMap (fun c1 =>
      ((ax_loops (np_amin (a_astro.map Pt.lat)) (np_amax (a_astro.map Pt.lat))).zip
        (ax_loops (np_amin (a_astro.map Pt.lat))
          (np_amax (a_astro.map Pt.lat))).tail).map (fun c2 => (c1, c2))))
    (List.replicate a_astro.length 0) (by rw [List.length_replicate]) hrad i p hp hp_reg
  rw [if_pos hcover] at hfull
  have hareas : (a_astro.map (overlap_area_for a_astro a_tot_astro a_tot_photo rad mag
      area_overlap))[i]? =
      some (overlap_area_for a_astro a_tot_astro a_tot_photo rad mag area_overlap p) := by
    rw [List.getElem?_map, hp, Option.map_some']
  simp only [calculate_local_density, overlap_bright_cut, min_max_lon]
  exact zip_map_div_getElem _ _ i _ _ hfull hareas

end Macauff

namespace Macauff

/-- C5 counterexample: two sources, one bright (magnitude 1 at the
origin) and one faint (magnitude 5 at (3, 3)), density radius 1,
density-defining magnitude 2, unit overlap area.  The faint source has
zero catalogue sources brighter than the density magnitude within the
radius, so the claim's density would be 0; the code returns 1, because
`calculate_local_density` forces empty error circles to count at least
the source itself (`counts[counts == 0] = 1`, lines 705-716). -/
theorem calculate_local_density_counterexample :
    (calculate_local_density [⟨0, 0⟩, ⟨3, 3⟩] [⟨0, 0⟩, ⟨3, 3⟩] [1, 5] 1 2
        (fun _ _ _ _ _ _ => 1))[1]? = some 1 ∧
    (claimLocalDensity [⟨0, 0⟩, ⟨3, 3⟩] [⟨0, 0⟩, ⟨3, 3⟩] [1, 5] 1 2
        (fun _ _ _ _ _ _ => 1))[1]? = some 0 ∧
    (1 : ℚ) ≠ 0 := by
  refine ⟨?_, ?_, one_ne_zero⟩
  · have h := calculate_local_density_getElem [⟨0, 0⟩, ⟨3, 3⟩] [⟨0, 0⟩, ⟨3, 3⟩]
      [1, 5] 1 2 (fun _ _ _ _ _ _ => 1) (by norm_num)
      (by norm_num [np_amin, np_amax, Pt.lon])
      (by norm_num [np_amin, np_amax, Pt.lat]) 1 ⟨3, 3⟩ rfl
    rw [h]
    norm_num [List.countP_cons, dist2, overlap_area_for]
  · simp only [claimLocalDensity, List.getElem?_map]
    norm_num [List.countP_cons, dist2, overlap_area_for]

/-- C5 (amended): `calculate_local_density` returns, for every source,
a local density equal to the count of catalogue sources brighter than
the density-defining magnitude within `density_radius` **with the count
floored at one** (sources with no bright neighbour in their circle are
forced to count at least themselves), divided by the effective
circle-rectangle overlap area — not the full circle area.  Hypotheses:
non-negative radius and non-degenerate coordinate extent of the queried
sources (with all sources on one line the code's chunk grid is empty
and `full_counts` is uninitialised `np.empty` memory). -/
theorem calculate_local_density_amended
    (a_astro a_tot_astro : List Pt) (a_tot_photo : List ℚ) (rad mag : ℚ)
    (area_overlap : Pt → ℚ → ℚ → ℚ → ℚ → ℚ → ℚ) (hrad : 0 ≤ rad)
    (hlon : np_amin (a_astro.map Pt.lon) < np_amax (a_astro.map Pt.lon))
    (hlat : np_amin (a_astro.map Pt.lat) < np_amax (a_astro.map Pt.lat))
    (i : ℕ) (p : Pt) (hp : a_astro[i]? = some p) :
    (calculate_local_density a_astro a_tot_astro a_tot_photo rad mag area_overlap)[i]? =
      some ((((max ((a_tot_astro.zip a_tot_photo).countP
          (fun pm => decide (pm.2 ≤ mag) && decide (dist2 pm.1 p ≤ rad ^ 2))) 1 : ℕ)) : ℚ) /
        overlap_area_for a_astro a_tot_astro a_tot_photo rad mag area_overlap p) :=
  calculate_local_density_getElem a_astro a_tot_astro a_tot_photo rad mag area_overlap
    hrad hlon hlat i p hp

/-- C5 witness: for the bright source at the origin in the
counterexample configuration the amended formula gives
`max(1, 1) / 1 = 1`. -/
theorem calculate_local_density_amended_witness :
    (calculate_local_density [⟨0, 0⟩, ⟨3, 3⟩] [⟨0, 0⟩, ⟨3, 3⟩] [1, 5] 1 2
        (fun _ _ _ _ _ _ => 1))[0]? = some 1 := by
  have h := calculate_local_density_amended [⟨0, 0⟩, ⟨3, 3⟩] [⟨0, 0⟩, ⟨3, 3⟩]
    [1, 5] 1 2 (fun _ _ _ _ _ _ => 1) (by norm_num)
    (by norm_num [np_amin, np_amax, Pt.lon])
    (by norm_num [np_amin, np_amax, Pt.lat]) 0 ⟨0, 0⟩ rfl
  rw [h]
  norm_num [List.countP_cons, dist2, overlap_area_for]

end Macauff
